import Mathlib

/-!
# FLD-Bot: scoped store, token maker, template engine and remote-content handlers

A shallow embedding of `src/storage/TempStorage.go`, of the token maker, the field
captures and the JSON command of `src/command/json_sender.go`, and of the selector
captures and the HTML command of `src/command/goquery_scraper.go`.

Conventions of the embedding:

* a Go `map[string]V` is a `GoMap V`: either the nil map or a list of entries in which
  the first entry for a key is the binding of that key. Reading a nil map finds nothing,
  assigning into a nil map panics, exactly as in Go;
* the store is a tree of maps: no two entries share one map object. Every map the
  package stores is created by `make` right before it is stored, so this holds for every
  store built through the methods of `TempStorage`;
* a Go `interface{}` is a `Value`; a `[]string` is a `List String` (a nil slice and an
  empty slice are both the empty list);
* a function that can panic returns `Except Panic _`; a function that also calls library
  code described only in part (`fmt.Sprintf`) returns `Except Fault _`;
* a handler returns a `Run`: the calls of the getter and of the sink, in order, and the
  value returned or the fault that stopped it. The getters, the parsers and the random
  source are parameters.
-/

namespace FLDBot

/-! ## Go run-time model -/

/-- Reasons for which the embedded Go code can panic. -/
inductive Panic where
  /-- Assignment to an entry of a nil map. -/
  | nilMapAssign
  /-- The call `panic(ok)` after a failed type assertion; `ok` is the value passed. -/
  | assertion (ok : Bool)
  /-- The run-time error "slice bounds out of range". -/
  | sliceBounds
  /-- The run-time error "interface conversion" of a failed type assertion `x.(T)`. -/
  | interfaceConversion
  /-- The run-time error "index out of range" of an index expression `x[i]`. -/
  | indexOutOfRange
  /-- The run-time error "invalid memory address or nil pointer dereference" of a call of a
  nil function value. -/
  | nilDereference
  deriving DecidableEq, Repr

/-- Values of Go type `interface{}` that the store can hold. -/
inductive Value where
  /-- The nil interface value. -/
  | nil
  /-- A value of dynamic type `[]string`. -/
  | strings (xs : List String)
  /-- A value of dynamic type `string`. -/
  | str (s : String)
  /-- A value of dynamic type `int`. -/
  | int (n : Int)
  /-- A value of dynamic type `bool`. -/
  | bool (b : Bool)
  deriving DecidableEq, Repr

instance : Inhabited Value := ⟨Value.nil⟩

/-- Go `map[string]V`. In `entries es` the first entry of `es` with a given key is the
binding of that key. -/
inductive GoMap (V : Type) where
  /-- The nil map (zero value of a map type). -/
  | nilMap
  /-- A map created by `make`, with its entries. -/
  | entries (es : List (String × V))
  deriving DecidableEq, Repr

namespace GoMap

instance {V : Type} : Inhabited (GoMap V) := ⟨GoMap.nilMap⟩

/-- Go `make(map[string]V)`: a fresh empty map. -/
def make {V : Type} : GoMap V := GoMap.entries []

/-- Go `m == nil`. -/
def isNil {V : Type} : GoMap V → Bool
  | GoMap.nilMap => true
  | GoMap.entries _ => false

/-- Go `v, ok := m[k]`: `some v` when `ok`, `none` otherwise. Reading the nil map is
allowed and finds nothing. -/
def lookup {V : Type} : GoMap V → String → Option V
  | GoMap.nilMap, _ => none
  | GoMap.entries es, k => List.lookup k es

/-- Go `m[k]` as an expression: the zero value of `V` when the key is absent. -/
def index {V : Type} [Inhabited V] (m : GoMap V) (k : String) : V :=
  (m.lookup k).getD default

/-- Go `m[k] = v`. Panics on the nil map; otherwise `k` is bound to `v` and every other
key keeps its binding. -/
def assign {V : Type} : GoMap V → String → V → Except Panic (GoMap V)
  | GoMap.nilMap, _, _ => Except.error Panic.nilMapAssign
  | GoMap.entries es, k, v => Except.ok (GoMap.entries ((k, v) :: es.filter (fun e => e.1 != k)))

/-- The entries of a map; the nil map has none. -/
def toEntries {V : Type} : GoMap V → List (String × V)
  | GoMap.nilMap => []
  | GoMap.entries es => es

/-- The entries of `m` once `k` is bound to `v`: what `assign` leaves in a non-nil map. -/
def put {V : Type} (m : GoMap V) (k : String) (v : V) : GoMap V :=
  GoMap.entries ((k, v) :: m.toEntries.filter (fun e => e.1 != k))

end GoMap

/-! ## `src/storage/TempStorage.go` -/

/-- Go `service.Guild`: a (service, guild) pair. -/
structure Guild where
  ServiceID : String
  GuildID : String
  deriving DecidableEq, Repr

/-- Go `const adminKey = "Admin"`. -/
def adminKey : String := "Admin"

/-- Go `TempStorage`: the memory-resident store. -/
structure TempStorage where
  UserValues : GoMap (GoMap Value)
  GuildValues : GoMap (GoMap (GoMap Value))
  deriving DecidableEq, Repr

/-- Go `storage.TempStorage{}`: the zero value, both maps nil. -/
def TempStorage.zero : TempStorage :=
  { UserValues := GoMap.nilMap, GuildValues := GoMap.nilMap }

/-- Go `fmt.Errorf("No value for key %s", key)`, as the error's message. -/
def noValueError (key : String) : String := "No value for key " ++ key

/-- Go `TempStorage.GetGuildValue`: the pair `(val, err)`; `err = none` is Go's `nil`
error. -/
def GetGuildValue (t : TempStorage) (guild : Guild) (key : String) : Value × Option String :=
  let err := some (noValueError key)
  match t.GuildValues.lookup guild.ServiceID with
  | some _ =>
    match (t.GuildValues.index guild.ServiceID).lookup guild.GuildID with
    | some _ =>
      match ((t.GuildValues.index guild.ServiceID).index guild.GuildID).lookup key with
      | some val => (val, none)
      | none => (Value.nil, err)
    | none => (Value.nil, err)
  | none => (Value.nil, err)

/-- Go `TempStorage.SetGuildValue`. Each map level is created when it is nil, then the
value is assigned. -/
def SetGuildValue (t : TempStorage) (guild : Guild) (key : String) (val : Value) :
    Except Panic TempStorage := do
  let gv0 := if t.GuildValues.isNil then GoMap.make else t.GuildValues
  let gv1 ←
    if (gv0.index guild.ServiceID).isNil then gv0.assign guild.ServiceID GoMap.make
    else pure gv0
  let gv2 ←
    if ((gv1.index guild.ServiceID).index guild.GuildID).isNil then do
      let svc ← (gv1.index guild.ServiceID).assign guild.GuildID GoMap.make
      gv1.assign guild.ServiceID svc
    else pure gv1
  let leaf ← ((gv2.index guild.ServiceID).index guild.GuildID).assign key val
  let svc ← (gv2.index guild.ServiceID).assign guild.GuildID leaf
  let gv3 ← gv2.assign guild.ServiceID svc
  pure { t with GuildValues := gv3 }

/-- Go `TempStorage.GetUserValue`. It reads `GuildValues`, with the user id in the place
of the guild id. -/
def GetUserValue (t : TempStorage) (serviceID user key : String) : Value × Option String :=
  let err := some (noValueError key)
  match t.GuildValues.lookup serviceID with
  | some _ =>
    match (t.GuildValues.index serviceID).lookup user with
    | some _ =>
      match ((t.GuildValues.index serviceID).index user).lookup key with
      | some val => (val, none)
      | none => (Value.nil, err)
    | none => (Value.nil, err)
  | none => (Value.nil, err)

/-- Go `TempStorage.SetUserValue`. It writes `GuildValues`; a level whose lookup fails is
replaced by a fresh map (the whole `GuildValues` map, the whole service map, or the whole
map of the user). -/
def SetUserValue (t : TempStorage) (serviceID user key : String) (val : Value) :
    Except Panic TempStorage := do
  let gv0 :=
    if (t.GuildValues.lookup serviceID).isSome == false then GoMap.make else t.GuildValues
  let gv1 ←
    if ((gv0.index serviceID).lookup user).isSome == false then
      gv0.assign serviceID GoMap.make
    else pure gv0
  let gv2 ←
    if (((gv1.index serviceID).index user).lookup key).isSome == false then do
      let svc ← (gv1.index serviceID).assign user GoMap.make
      gv1.assign serviceID svc
    else pure gv1
  let leaf ← ((gv2.index serviceID).index user).assign key val
  let svc ← (gv2.index serviceID).assign user leaf
  let gv3 ← gv2.assign serviceID svc
  pure { t with GuildValues := gv3 }

/-- Go `TempStorage.IsAdmin`: a linear scan of the guild's admin list. -/
def IsAdmin (t : TempStorage) (guild : Guild) (ID : String) : Bool :=
  match GetGuildValue t guild adminKey with
  | (val, none) =>
    match val with
    | Value.strings admins => admins.any (fun adminID => adminID == ID)
    | _ => false
  | (_, some _) => false

/-- Go `TempStorage.SetAdmin`. -/
def SetAdmin (t : TempStorage) (guild : Guild) (ID : String) : Except Panic TempStorage :=
  match GetGuildValue t guild adminKey with
  | (val, none) =>
    match val with
    | Value.strings currentAdmins =>
      SetGuildValue t guild adminKey (Value.strings (currentAdmins ++ [ID]))
    | _ => Except.error (Panic.assertion false)
  | (_, some _) => SetGuildValue t guild adminKey (Value.strings [ID])

/-- Go `TempStorage.UnsetAdmin`. -/
def UnsetAdmin (t : TempStorage) (guild : Guild) (ID : String) : Except Panic TempStorage :=
  match GetGuildValue t guild adminKey with
  | (val, none) =>
    match val with
    | Value.strings currentAdmins =>
      let newAdmins := currentAdmins.foldl
        (fun newAdmins adminID => if adminID != ID then newAdmins ++ [adminID] else newAdmins) []
      SetGuildValue t guild adminKey (Value.strings newAdmins)
    | _ => Except.error (Panic.assertion false)
  | (_, some _) => SetGuildValue t guild adminKey (Value.strings [])

/-! ## Vocabulary of the statements -/

/-- The guild's admin value is absent (the lookup fails) or is a list of ids. -/
def adminValueAbsentOrList (t : TempStorage) (guild : Guild) : Bool :=
  match GetGuildValue t guild adminKey with
  | (Value.strings _, none) => true
  | (_, none) => false
  | (_, some _) => true

/-- The store that holds the admin list `l` for `guild` and nothing else: what the calls
`SetAdmin(guild, x)` for the ids `x` of a non-empty `l`, made in order, leave of the
zero-value store. -/
def storeWithAdmins (guild : Guild) (l : List String) : TempStorage :=
  { UserValues := GoMap.nilMap,
    GuildValues := GoMap.entries [(guild.ServiceID, GoMap.entries [(guild.GuildID,
      GoMap.entries [(adminKey, Value.strings l)])])] }

/-- One call `SetGuildValue(guild, key, val)`. -/
structure GuildWrite where
  guild : Guild
  key : String
  val : Value
  deriving DecidableEq, Repr

/-- The calls `SetGuildValue` of a sequence, made in order. -/
def applyGuildWrites (t : TempStorage) : List GuildWrite → Except Panic TempStorage
  | [] => Except.ok t
  | w :: ws =>
    match SetGuildValue t w.guild w.key w.val with
    | Except.ok t' => applyGuildWrites t' ws
    | Except.error e => Except.error e

/-- The value of the most recent write of a sequence to `(guild, key)`, when there is
one. -/
def lastWritten (ws : List GuildWrite) (guild : Guild) (key : String) : Option Value :=
  (ws.reverse.find? (fun w => decide (w.guild = guild ∧ w.key = key))).map (fun w => w.val)

/-! ## `TokenMaker` of `src/command/json_sender.go` -/

/-- Go `[16]byte`, the result type of `md5.Sum`. -/
structure Digest where
  bytes : List UInt8
  size : bytes.length = 16

/-- The lowercase hexadecimal digit of a number below 16. -/
def hexDigit (n : Nat) : Char :=
  if n < 10 then Char.ofNat (48 + n) else Char.ofNat (87 + n)

/-- The characters that the verb `%x` prints for a sequence of bytes: two lowercase
hexadecimal digits per byte, the high one first. -/
def hexChars : List UInt8 → List Char
  | [] => []
  | b :: bs => hexDigit (b.toNat / 16) :: hexDigit (b.toNat % 16) :: hexChars bs

/-- Go `fmt.Sprintf("%x", d)` for a byte array `d`. -/
def sprintfHex (d : Digest) : String := String.mk (hexChars d.bytes)

/-- Go `s[:n]` for a string `s` of one-byte characters (for such a string the byte offset
`n` is a character offset): a run-time panic unless `0 <= n <= len(s)`. -/
def sliceTo (s : String) (n : Int) : Except Panic String :=
  if n < 0 ∨ (s.length : Int) < n then Except.error Panic.sliceBounds
  else Except.ok (String.mk (s.data.take n.toNat))

/-- Go `TokenMaker`. The field `Type` of the source is `Type_` here. -/
structure TokenMaker where
  Type_ : String
  Prefix : String
  Postfix : String
  Size : Int
  deriving DecidableEq, Repr

/-- Go `TokenMaker.MakeToken`. The library function `md5.Sum` is the parameter
`md5Sum`. -/
def TokenMaker.MakeToken (md5Sum : List UInt8 → Digest) (t : TokenMaker) (input : String) :
    Except Panic String :=
  if t.Type_ = "MD5" then
    let fullString := (t.Prefix ++ input ++ t.Postfix).toUTF8.toList
    sliceTo (sprintfHex (md5Sum fullString)) t.Size
  else Except.ok ""

/-- A stand-in for `md5.Sum` on concrete inputs: it returns the MD5 digest of the empty
input, d41d8cd98f00b204e9800998ecf8427e, whatever its argument. -/
def emptyInputDigest (_ : List UInt8) : Digest :=
  { bytes := [0xd4, 0x1d, 0x8c, 0xd9, 0x8f, 0x00, 0xb2, 0x04, 0xe9, 0x80, 0x09, 0x98, 0xec,
      0xf8, 0x42, 0x7e],
    size := rfl }

/-! ## `selectorCaptureToString` of `src/command/goquery_scraper.go`: the index -/

/-- Go `SelectorCapture`. Each map of `Replacements` is given by its entries. -/
structure SelectorCapture where
  Template : String
  Selectors : List String
  HandleMultiple : String
  Replacements : List (List (String × String))
  deriving DecidableEq, Repr

/-- A parsed document, as far as the selectors see it: `doc selector` is the list of the
texts of the nodes that `doc.Find(selector)` matches, in document order. -/
abbrev Document := String → List String

/-- Go `math.MaxInt64`. -/
def maxInt64 : Int := 9223372036854775807

/-- Go `rand.Int63n(n)` for `n > 0`: a number of `[0, n)`. `r` is the number that the
random source draws; every number of `[0, n)` is the result for some `r`. -/
def Int63n (r : Nat) (n : Int) : Int := (r : Int) % n

/-- The first loop of `selectorCaptureToString`: `maxLength` once all selectors are
matched, 0 when there is no selector. -/
def commonLength (doc : Document) (selectorCapture : SelectorCapture) : Int :=
  if selectorCapture.Selectors.length = 0 then 0
  else
    selectorCapture.Selectors.foldl
      (fun maxLength selector =>
        let captureLength : Int := ((doc selector).length : Int)
        if captureLength < maxLength then captureLength else maxLength)
      maxInt64

/-- The index that `selectorCaptureToString` uses for every selector: `index` as it
stands before the loop over `allCaptures`, in the branch `maxLength > 0`; `none` when that
branch is not taken. `r` is the draw of the random source. -/
def selectorCaptureIndex (doc : Document) (selectorCapture : SelectorCapture) (r : Nat) :
    Option Int :=
  let maxLength := commonLength doc selectorCapture
  if maxLength > 0 then
    let maxLength := maxLength - 1
    let index : Int :=
      if maxLength > 0 then
        if selectorCapture.HandleMultiple = "Random" then Int63n r maxLength
        else if selectorCapture.HandleMultiple = "Last" then maxLength
        else 0
      else 0
    some index
  else none

/-- The number `n` of the specification: the minimum number of candidates over all
selectors, 0 when there is no selector. -/
def minCandidates (doc : Document) (selectorCapture : SelectorCapture) : Nat :=
  match (selectorCapture.Selectors.map (fun selector => (doc selector).length)).min? with
  | some n => n
  | none => 0

/-- A document for concrete inputs: selector "h1" matches three nodes, selector "p" two,
every other selector none. -/
def sampleDocument : Document := fun selector =>
  if selector = "h1" then ["Alpha", "Beta", "Gamma"]
  else if selector = "p" then ["one", "two"]
  else []

/-! ## Library functions used by the command package

The functions of `strings`, `net/url` and `fmt` that the handlers call, on Lean strings
(sequences of Unicode characters; a Go string that is not valid UTF-8 has no
counterpart). -/

/-- What stops a run of the embedded code before it returns. -/
inductive Fault where
  /-- The Go code panics. -/
  | panic (p : Panic)
  /-- The run reaches library behaviour that the embedding does not describe; the text
  names it. -/
  | unmodelled (what : String)
  deriving DecidableEq, Repr

/-- A result of `Except Panic` as a result of `Except Fault`. -/
def liftPanic {α : Type} : Except Panic α → Except Fault α
  | Except.ok a => Except.ok a
  | Except.error p => Except.error (Fault.panic p)

namespace strings

/-- Occurrence test on characters: `substr` starts at some position of `s`. -/
def containsChars (substr : List Char) : List Char → Bool
  | [] => substr.isPrefixOf []
  | c :: t => substr.isPrefixOf (c :: t) || containsChars substr t

/-- Go `strings.Contains(s, substr)`. -/
def Contains (s substr : String) : Bool := containsChars substr.data s.data

/-- Non-overlapping occurrences of a non-empty `substr`, counted from the left; `skip` is
the number of characters still covered by the occurrence just counted. -/
def countFrom (substr : List Char) : Nat → List Char → Nat
  | _, [] => 0
  | skip + 1, _ :: t => countFrom substr skip t
  | 0, c :: t =>
    if substr.isPrefixOf (c :: t) then countFrom substr (substr.length - 1) t + 1
    else countFrom substr 0 t

/-- Go `strings.Count(s, substr)`: the number of non-overlapping occurrences; for an empty
`substr`, the number of characters plus one. -/
def Count (s substr : String) : Nat :=
  if substr.data = [] then s.data.length + 1 else countFrom substr.data 0 s.data

/-- Replacement of the leftmost occurrence of `old` by `new`. -/
def replaceFirst (old new : List Char) : List Char → List Char
  | [] => if old.isPrefixOf [] then new else []
  | c :: t =>
    if old.isPrefixOf (c :: t) then new ++ (c :: t).drop old.length
    else c :: replaceFirst old new t

/-- Go `strings.Replace(s, old, new, 1)`: `s` with its first occurrence of `old` replaced
by `new`. -/
def Replace1 (s old new : String) : String := String.mk (replaceFirst old.data new.data s.data)

/-- Replacement of all non-overlapping occurrences of a non-empty `old`, from the left;
`skip` is the number of characters still covered by the occurrence just replaced. -/
def replaceAllFrom (old new : List Char) : Nat → List Char → List Char
  | _, [] => []
  | skip + 1, _ :: t => replaceAllFrom old new skip t
  | 0, c :: t =>
    if old.isPrefixOf (c :: t) then new ++ replaceAllFrom old new (old.length - 1) t
    else c :: replaceAllFrom old new 0 t

/-- Go `strings.ReplaceAll(s, old, new)`; for an empty `old`, `new` is inserted before
every character and at the end. -/
def ReplaceAll (s old new : String) : String :=
  if old.data = [] then String.mk (s.data.foldr (fun c acc => new.data ++ c :: acc) new.data)
  else String.mk (replaceAllFrom old.data new.data 0 s.data)

/-- Go `unicode.IsSpace`: tab, line feed, vertical tab, form feed, carriage return, space,
U+0085, U+00A0 and the characters of category Z. -/
def isSpace (c : Char) : Bool :=
  let n := c.toNat
  (9 ≤ n && n ≤ 13) || n = 32 || n = 0x85 || n = 0xA0 || n = 0x1680 ||
    (0x2000 ≤ n && n ≤ 0x200A) || n = 0x2028 || n = 0x2029 || n = 0x202F || n = 0x205F ||
    n = 0x3000

/-- Go `strings.TrimSpace(s)`: `s` without its leading and trailing white space. -/
def TrimSpace (s : String) : String :=
  String.mk (((s.data.dropWhile isSpace).reverse.dropWhile isSpace).reverse)

/-- Go `strings.Join(elems, sep)`. -/
def Join (elems : List String) (sep : String) : String := sep.intercalate elems

end strings

namespace url

/-- The uppercase hexadecimal digit of a number below 16. -/
def upperHexDigit (n : Nat) : Char :=
  if n < 10 then Char.ofNat (48 + n) else Char.ofNat (55 + n)

/-- Go `shouldEscape(c, encodePathSegment)` of `net/url`: letters, digits and the
characters `-_.~$&+:=@` are kept, every other byte is escaped. -/
def shouldEscape (b : Nat) : Bool :=
  if (97 ≤ b && b ≤ 122) || (65 ≤ b && b ≤ 90) || (48 ≤ b && b ≤ 57) then false
  else if b = 45 || b = 95 || b = 46 || b = 126 then false
  else if b = 36 || b = 38 || b = 43 || b = 58 || b = 61 || b = 64 then false
  else true

/-- The escaped form of one byte: the byte itself, or `%` and two uppercase hexadecimal
digits. -/
def escapeByte (b : Nat) : List Char :=
  if shouldEscape b then [Char.ofNat 37, upperHexDigit (b / 16), upperHexDigit (b % 16)]
  else [Char.ofNat b]

/-- The escaped form of the bytes of a string, in order. -/
def escapeBytes : List UInt8 → List Char
  | [] => []
  | b :: bs => escapeByte b.toNat ++ escapeBytes bs

/-- Go `url.PathEscape(s)`: the bytes of the UTF-8 encoding of `s`, each escaped for a
path segment. -/
def PathEscape (s : String) : String :=
  String.mk (escapeBytes (s.data.flatMap String.utf8EncodeChar))

end url

namespace fmt

/-- The text that `Sprintf` appends for operands no directive has used:
`%!(EXTRA string=a, string=b)`; nothing when none is left. -/
def extraOperands : List String → List Char
  | [] => []
  | a :: rest =>
    "%!(EXTRA ".data ++ (", ".intercalate ((a :: rest).map (fun x => "string=" ++ x))).data ++
      [Char.ofNat 41]

/-- A character after `%` that starts a flag, a width, a precision or an explicit operand
index: `#`, `0`, `+`, `-`, space, a digit, `.`, `[`, `*`. -/
def startsComplexDirective (c : Char) : Bool :=
  let n := c.toNat
  n = 35 || n = 43 || n = 45 || n = 32 || (48 ≤ n && n ≤ 57) || n = 46 || n = 91 || n = 42

/-- Go `printArg(arg, verb)` for a string operand and no flag: `%s` and `%v` print the
string, `%T` its type, any other verb but `q`, `x`, `X`, `w` the bad-verb text
`%!verb(string=arg)`. -/
def printString (verb : Char) (arg : String) : Except Fault (List Char) :=
  if verb = Char.ofNat 115 || verb = Char.ofNat 118 then Except.ok arg.data
  else if verb = Char.ofNat 84 then Except.ok "string".data
  else if verb = Char.ofNat 113 || verb = Char.ofNat 120 || verb = Char.ofNat 88 ||
      verb = Char.ofNat 119 then
    Except.error (Fault.unmodelled "fmt: verbs q, x, X and w")
  else Except.ok ("%!".data ++ verb :: "(string=".data ++ arg.data ++ [Char.ofNat 41])

/-- The loop of `doPrintf` of `fmt` on the characters of the format, for string operands.
A directive is `%` and a verb character: `%%` prints `%`; a verb with no operand left
prints `%!verb(MISSING)`; `%` at the end of the format prints `%!(NOVERB)`; operands left
at the end are reported by `extraOperands`. Flags, widths, precisions and operand indexes
are not described. -/
def sprintfChars : List Char → List String → Except Fault (List Char)
  | [], a => Except.ok (extraOperands a)
  | c :: rest, a =>
    if c = Char.ofNat 37 then
      match rest with
      | [] => Except.ok ("%!(NOVERB)".data ++ extraOperands a)
      | verb :: rest' =>
        if verb = Char.ofNat 37 then
          match sprintfChars rest' a with
          | Except.ok out => Except.ok (Char.ofNat 37 :: out)
          | Except.error e => Except.error e
        else if startsComplexDirective verb then
          Except.error (Fault.unmodelled "fmt: flags, width, precision, operand index")
        else
          match a with
          | [] =>
            match sprintfChars rest' [] with
            | Except.ok out => Except.ok ("%!".data ++ verb :: "(MISSING)".data ++ out)
            | Except.error e => Except.error e
          | arg :: a' =>
            match printString verb arg, sprintfChars rest' a' with
            | Except.ok printed, Except.ok out => Except.ok (printed ++ out)
            | Except.error e, _ => Except.error e
            | _, Except.error e => Except.error e
    else
      match sprintfChars rest a with
      | Except.ok out => Except.ok (c :: out)
      | Except.error e => Except.error e

/-- Go `fmt.Sprintf(format, a...)` for string operands `a`. -/
def Sprintf (format : String) (a : List String) : Except Fault String :=
  match sprintfChars format.data a with
  | Except.ok out => Except.ok (String.mk out)
  | Except.error e => Except.error e

end fmt

/-! ## Messages, events and runs of a handler -/

/-- Go `service.Conversation`, with the fields the package uses. -/
structure Conversation where
  ServiceID : String
  ConversationID : String
  GuildID : String
  Admin : Bool
  deriving DecidableEq, Repr

/-- Go `service.MessageField`. -/
structure MessageField where
  Field : String
  Value : String
  URL : String
  deriving DecidableEq, Repr

/-- Go `service.Message`, with the fields the package uses. -/
structure Message where
  Title : String
  Description : String
  Fields : List MessageField
  deriving DecidableEq, Repr

/-- What a handler does to its collaborators. -/
inductive Event where
  /-- A call of the injected getter (`htmlGetter` or `jsonGetter`) with a request
  target. -/
  | fetch (target : String)
  /-- A call `sink(conversation, msg)`. -/
  | send (conversation : Conversation) (msg : Message)
  deriving DecidableEq, Repr

/-- A run of handler code: the events in the order they happen, and the value returned
or the fault that stopped the run after these events. -/
structure Run (α : Type) where
  events : List Event
  result : Except Fault α

namespace Run

/-- A run that does nothing and returns `a`. -/
def ret {α : Type} (a : α) : Run α := { events := [], result := Except.ok a }

/-- One run after another: the second starts from the value of the first, and does not
start when the first is stopped by a fault. -/
def andThen {α β : Type} (r : Run α) (f : α → Run β) : Run β :=
  match r.result with
  | Except.ok a => { events := r.events ++ (f a).events, result := (f a).result }
  | Except.error e => { events := r.events, result := Except.error e }

/-- The run of one event. -/
def emit (e : Event) : Run Unit := { events := [e], result := Except.ok () }

/-- A computation without events, as a run. -/
def lift {α : Type} (x : Except Fault α) : Run α := { events := [], result := x }

end Run

/-! ## `selectorCaptureToString` of `src/command/goquery_scraper.go`: the rendering -/

/-- The reply of `selectorCaptureToString` when no candidate is common to all selectors
and the template has a placeholder. -/
def retrievalError : String := "There was an error retrieving information from the webpage."

/-- The loop over one map of `Replacements` in `selectorCaptureToString`: the first rule,
in the order in which the range loop visits the map, whose search text occurs in `val` is
applied to all its occurrences, and the loop ends. `rules` lists the entries of the map in
that order. -/
def applyFirstRule : List (String × String) → String → String
  | [], val => val
  | (search, replace) :: rules, val =>
    if strings.Contains val search then strings.ReplaceAll val search replace
    else applyFirstRule rules val

/-- The loop over `allCaptures` in `selectorCaptureToString`, from position `i` on:
`tmp[i]` for each selector. `Slice(index, index+1)` panics when `index` is not a position
of the selection. -/
def selectorValues (doc : Document) (replacements : List (List (String × String)))
    (index : Nat) : Nat → List String → Except Fault (List String)
  | _, [] => Except.ok []
  | i, selector :: selectors =>
    match (doc selector).get? index with
    | none => Except.error (Fault.panic Panic.sliceBounds)
    | some text =>
      let val := strings.TrimSpace text
      let val :=
        match replacements.get? i with
        | some rules => applyFirstRule rules val
        | none => val
      match selectorValues doc replacements index (i + 1) selectors with
      | Except.ok vals => Except.ok (val :: vals)
      | Except.error e => Except.error e

/-- Go `selectorCaptureToString`. `r` is the draw of the random source. -/
def selectorCaptureToString (doc : Document) (selectorCapture : SelectorCapture) (r : Nat) :
    Except Fault String :=
  let maxLength := commonLength doc selectorCapture
  let reply := selectorCapture.Template
  if maxLength = 0 ∧ strings.Contains reply "%s" = true then Except.ok retrievalError
  else
    match selectorCaptureIndex doc selectorCapture r with
    | some index =>
      match selectorValues doc selectorCapture.Replacements index.toNat 0
          selectorCapture.Selectors with
      | Except.ok tmp => fmt.Sprintf reply tmp
      | Except.error e => Except.error e
    | none => Except.ok reply

/-! ## `ToStringWithMap` -/

/-- The loop over one map of `Replacements` in `SelectorCapture.ToStringWithMap`: every
rule is applied, in the order in which the range loop visits the map. -/
def applyAllRules : List (String × String) → String → String
  | [], val => val
  | (search, replace) :: rules, val =>
    applyAllRules rules (strings.ReplaceAll val search replace)

/-- The loop of `SelectorCapture.ToStringWithMap` from position `i` on; `out` is the
template as filled so far. -/
def selectorFillFrom (replacements : List (List (String × String))) (dict : GoMap String) :
    Nat → List String → String → Except Fault String
  | _, [], out => Except.ok out
  | i, selector :: selectors, out =>
    match dict.lookup selector with
    | some val =>
      let val :=
        match replacements.get? i with
        | some rules => applyAllRules rules val
        | none => val
      match fmt.Sprintf out [val] with
      | Except.ok out' => selectorFillFrom replacements dict (i + 1) selectors out'
      | Except.error e => Except.error e
    | none => selectorFillFrom replacements dict (i + 1) selectors out

/-- Go `SelectorCapture.ToStringWithMap`: the pair `(out, err)`; `err` is never set. -/
def SelectorCapture.ToStringWithMap (s : SelectorCapture) (dict : GoMap String) :
    Except Fault (String × Option String) :=
  match selectorFillFrom s.Replacements dict 0 s.Selectors s.Template with
  | Except.ok out => Except.ok (out, none)
  | Except.error e => Except.error e

/-- A value of a decoded JSON object, as `json.Unmarshal` stores it in an `interface{}`:
nil, bool, float64 (here the numeral), string, `[]interface{}` or
`map[string]interface{}`. -/
inductive JSONValue where
  | null
  | bool (b : Bool)
  | number (numeral : String)
  | str (s : String)
  | array (items : List JSONValue)
  | object (members : List (String × JSONValue))

/-- Go `FieldCapture`. -/
structure FieldCapture where
  Template : String
  Selectors : List String
  deriving DecidableEq, Repr

/-- The loop of `FieldCapture.ToStringWithMap`; `out` is the template as filled so far.
The type assertion `val.(string)` panics on a value that is not a string. -/
def fieldFill (dict : GoMap JSONValue) : List String → String → Except Fault String
  | [], out => Except.ok out
  | selector :: selectors, out =>
    match dict.lookup selector with
    | some (JSONValue.str val) =>
      match fmt.Sprintf out [val] with
      | Except.ok out' => fieldFill dict selectors out'
      | Except.error e => Except.error e
    | some _ => Except.error (Fault.panic Panic.interfaceConversion)
    | none => fieldFill dict selectors out

/-- Go `FieldCapture.ToStringWithMap`: the pair `(out, err)`; `err` is never set. -/
def FieldCapture.ToStringWithMap (f : FieldCapture) (dict : GoMap JSONValue) :
    Except Fault (String × Option String) :=
  match fieldFill dict f.Selectors f.Template with
  | Except.ok out => Except.ok (out, none)
  | Except.error e => Except.error e

/-! ## The JSON command of `src/command/json_sender.go` -/

/-- Go `JSONCapture`. -/
structure JSONCapture where
  Title : FieldCapture
  Body : FieldCapture
  deriving DecidableEq, Repr

/-- Go `JSONGetterConfig`, without the field `RateLimit`, which `jsonGetterFunc` does not
read. -/
structure JSONGetterConfig where
  Trigger : String
  Capture : String
  Title : FieldCapture
  Captures : List JSONCapture
  URL : String
  Help : String
  Description : String
  Grouped : Bool
  Delay : Int
  Token : TokenMaker
  deriving DecidableEq, Repr

/-- What the JSON command gets for a request target: the getter fails, or reading the
stream fails, or `json.Unmarshal` into a `map[string]interface{}` fails, or the payload is
decoded to an object. -/
inductive JSONFetch where
  | getterError
  | readError
  | invalidJSON
  | object (dict : GoMap JSONValue)

/-- The loop that fills the URL in `jsonGetterFunc`, at position `i` of `capture[1:]`: it
ends after `replacements` words. -/
def jsonFillLoop (replacements : Nat) : Nat → List String → String → String
  | _, [], msgURL => msgURL
  | i, word :: words, msgURL =>
    if i = replacements then msgURL
    else jsonFillLoop replacements (i + 1) words
      (strings.Replace1 msgURL "%s" (url.PathEscape word))

/-- The request target that `jsonGetterFunc` builds for one row and passes to the getter.
`capture[1:]` panics on a row without elements. -/
def jsonRequestTarget (md5Sum : List UInt8 → Digest) (config : JSONGetterConfig)
    (capture : List String) : Except Fault String :=
  match capture with
  | [] => Except.error (Fault.panic Panic.sliceBounds)
  | _ :: words =>
    let msgURL := config.URL
    let replacements := strings.Count msgURL "%s"
    let msgURL := jsonFillLoop replacements 0 words msgURL
    match liftPanic (config.Token.MakeToken md5Sum (strings.Join words "")) with
    | Except.ok token => Except.ok (msgURL ++ token)
    | Except.error e => Except.error e

/-- The loop over `config.Captures` in `jsonGetterFunc`: a capture whose body is filled
(no `%s` left in it) appends one field to `fields`. -/
def jsonFields (dict : GoMap JSONValue) :
    List JSONCapture → List MessageField → Except Fault (List MessageField)
  | [], fields => Except.ok fields
  | capture :: captures, fields =>
    match capture.Body.ToStringWithMap dict with
    | Except.error e => Except.error e
    | Except.ok (body, err) =>
      if err = none ∧ strings.Contains body "%s" = false then
        match capture.Title.ToStringWithMap dict with
        | Except.error e => Except.error e
        | Except.ok (title, err') =>
          if err' = none then
            jsonFields dict captures (fields ++ [{ Field := title, Value := body, URL := "" }])
          else jsonFields dict captures fields
      else jsonFields dict captures fields

/-- The loop `for _, field := range fields` of the branch `Grouped == false`: one message
per field. The pause `time.Sleep` between two messages is not an event. -/
def sendEachField (sender : Conversation) : List MessageField → Run Unit
  | [] => Run.ret ()
  | field :: fields =>
    Run.andThen
      (Run.emit (Event.send sender
        { Title := field.Field, Description := field.Value, Fields := [] }))
      (fun _ => sendEachField sender fields)

/-- The body of the loop over the rows in `jsonGetterFunc`; `fields` is the slice declared
before the loop, and the value returned is that slice after the row. The output of
`fmt.Print(msgURL)` is not an event. -/
def jsonRow (md5Sum : List UInt8 → Digest) (config : JSONGetterConfig) (sender : Conversation)
    (jsonGetter : String → JSONFetch) (capture : List String) (fields : List MessageField) :
    Run (List MessageField) :=
  Run.andThen (Run.lift (jsonRequestTarget md5Sum config capture)) (fun msgURL =>
  Run.andThen (Run.emit (Event.fetch msgURL)) (fun _ =>
    match jsonGetter msgURL with
    | JSONFetch.object dict =>
      Run.andThen (Run.lift (jsonFields dict config.Captures fields)) (fun fields' =>
        if config.Grouped then
          Run.andThen (Run.lift (config.Title.ToStringWithMap dict)) (fun titleErr =>
            if titleErr.2 = none then
              Run.andThen
                (Run.emit (Event.send sender
                  { Title := titleErr.1, Fields := fields', Description := config.Description }))
                (fun _ => Run.ret fields')
            else Run.ret fields')
        else
          Run.andThen (sendEachField sender fields') (fun _ => Run.ret fields'))
    | _ => Run.ret fields))

/-- The loop over the rows in `jsonGetterFunc`. -/
def jsonRows (md5Sum : List UInt8 → Digest) (config : JSONGetterConfig) (sender : Conversation)
    (jsonGetter : String → JSONFetch) : List (List String) → List MessageField → Run Unit
  | [], _ => Run.ret ()
  | capture :: rows, fields =>
    Run.andThen (jsonRow md5Sum config sender jsonGetter capture fields)
      (fun fields' => jsonRows md5Sum config sender jsonGetter rows fields')

/-- The message of both remote-content handlers when the URL cannot be built. -/
def urlBuildError : Message :=
  { Title := "", Description := "An error occurred when building the url.", Fields := [] }

/-- Go `jsonGetterFunc`. The parameters `user` and `storage` of the source are not used by
it; `msg` is the capture set, a nil slice being the empty list. -/
def jsonGetterFunc (md5Sum : List UInt8 → Digest) (config : JSONGetterConfig)
    (sender : Conversation) (msg : List (List String)) (jsonGetter : String → JSONFetch) :
    Run Unit :=
  let substitutions := strings.Count config.URL "%s"
  if substitutions > 0 ∧ (msg.length = 0 ∨ (msg.headD []).length < substitutions) then
    Run.emit (Event.send sender urlBuildError)
  else jsonRows md5Sum config sender jsonGetter msg []

/-! ## The HTML command of `src/command/goquery_scraper.go` -/

/-- Go `GoQueryScraperConfig`. -/
structure GoQueryScraperConfig where
  Title : String
  Trigger : String
  Capture : String
  TitleSelector : SelectorCapture
  URL : String
  ReplySelector : SelectorCapture
  Help : String
  deriving DecidableEq, Repr

/-- What the HTML command gets for a request target: the getter fails, or
`goquery.NewDocumentFromReader` fails on the stream, or a document is parsed. `redirect`
is the url that the getter returns, `text` is `doc.Text()`. -/
inductive HTMLFetch where
  | getterError
  | parseError (redirect : String)
  | page (redirect : String) (text : String) (doc : Document)

/-- The loop that fills the URL in `goqueryScraper`: one `fmt.Sprintf` per word of
`capture[1:]`. -/
def htmlFillLoop : List String → String → Except Fault String
  | [], msgURL => Except.ok msgURL
  | word :: words, msgURL =>
    match fmt.Sprintf msgURL [url.PathEscape word] with
    | Except.ok msgURL' => htmlFillLoop words msgURL'
    | Except.error e => Except.error e

/-- The request target that `goqueryScraper` builds for one row and passes to the getter.
`capture[1:]` panics on a row without elements. -/
def htmlRequestTarget (config : GoQueryScraperConfig) (capture : List String) :
    Except Fault String :=
  match capture with
  | [] => Except.error (Fault.panic Panic.sliceBounds)
  | _ :: words => htmlFillLoop words config.URL

/-- The field that the body of the loop over the rows in `goqueryScraper` appends for one
row, with the call of the getter. `rReply` and `rTitle` are the draws of the random source
in the two calls of `selectorCaptureToString`, the reply first. -/
def htmlRow (config : GoQueryScraperConfig) (htmlGetter : String → HTMLFetch)
    (rReply rTitle : Nat) (capture : List String) : Run MessageField :=
  Run.andThen (Run.lift (htmlRequestTarget config capture)) (fun msgURL =>
  Run.andThen (Run.emit (Event.fetch msgURL)) (fun _ =>
    match htmlGetter msgURL with
    | HTMLFetch.page redirect text doc =>
      if text = "" then
        Run.andThen (Run.lift (fmt.Sprintf "Webpage not found at %s" [redirect])) (fun value =>
          Run.ret { Field := msgURL, Value := value, URL := "" })
      else
        Run.andThen (Run.lift (selectorCaptureToString doc config.ReplySelector rReply))
          (fun msgCapture =>
        Run.andThen (Run.lift (selectorCaptureToString doc config.TitleSelector rTitle))
          (fun title =>
            Run.ret { Field := title, Value := msgCapture, URL := redirect }))
    | HTMLFetch.parseError _ =>
      Run.ret
        { Field := msgURL, Value := "An error occurred when processing the webpage.", URL := "" }
    | HTMLFetch.getterError =>
      Run.ret
        { Field := "Error", Value := "An error occurred retrieving the webpage.",
          URL := msgURL }))

/-- The loop over the rows in `goqueryScraper`, from row number `j` on: the fields of the
rows, in order. `rand k` is the `k`-th draw of the random source. -/
def htmlRows (config : GoQueryScraperConfig) (htmlGetter : String → HTMLFetch)
    (rand : Nat → Nat) : Nat → List (List String) → Run (List MessageField)
  | _, [] => Run.ret []
  | j, capture :: rows =>
    Run.andThen (htmlRow config htmlGetter (rand (2 * j)) (rand (2 * j + 1)) capture)
      (fun field =>
    Run.andThen (htmlRows config htmlGetter rand (j + 1) rows) (fun fields =>
      Run.ret (field :: fields)))

/-- Go `goqueryScraper`. The parameters `user` and `storage` of the source are not used by
it; `msg` is the capture set, a nil slice being the empty list. -/
def goqueryScraper (config : GoQueryScraperConfig) (sender : Conversation)
    (msg : List (List String)) (htmlGetter : String → HTMLFetch) (rand : Nat → Nat) :
    Run Unit :=
  let substitutions := strings.Count config.URL "%s"
  if substitutions > 0 ∧ (msg.length = 0 ∨ (msg.headD []).length < substitutions) then
    Run.emit (Event.send sender urlBuildError)
  else
    Run.andThen (htmlRows config htmlGetter rand 0 msg) (fun fields =>
      Run.emit (Event.send sender
        { Title := config.Title, Description := "", Fields := fields }))

/-! ## The HTML command with the formatter as a parameter

`fmt.Sprintf` is a library function, and Go's returns a string for every format and all
operands. The definitions of this section are the code of `goquery_scraper.go` once more,
with the formatter as the parameter `sprintf`. At `fmt.Sprintf` they are the definitions
above (lemma `goqueryScraper_eq_withSprintf` and the lemmas before it); at
`fmt.SprintfTotal beyond` the formatter returns for every input. -/

/-- Go `fmt.Sprintf` as a function that returns for every input: on the formats that
`fmt.Sprintf` above covers it is that definition, on the other formats it is the library's
function, the parameter `beyond`. -/
def fmt.SprintfTotal (beyond : String → List String → String) (format : String)
    (a : List String) : Except Fault String :=
  match fmt.Sprintf format a with
  | Except.ok s => Except.ok s
  | Except.error _ => Except.ok (beyond format a)

namespace withSprintf

/-- Go `selectorCaptureToString`, with `fmt.Sprintf` as the parameter `sprintf`. `r` is
the draw of the random source. -/
def selectorCaptureToString (sprintf : String → List String → Except Fault String)
    (doc : Document) (selectorCapture : SelectorCapture) (r : Nat) : Except Fault String :=
  let maxLength := commonLength doc selectorCapture
  let reply := selectorCapture.Template
  if maxLength = 0 ∧ strings.Contains reply "%s" = true then Except.ok retrievalError
  else
    match selectorCaptureIndex doc selectorCapture r with
    | some index =>
      match selectorValues doc selectorCapture.Replacements index.toNat 0
          selectorCapture.Selectors with
      | Except.ok tmp => sprintf reply tmp
      | Except.error e => Except.error e
    | none => Except.ok reply

/-- The loop that fills the URL in `goqueryScraper`: one call of the formatter per word of
`capture[1:]`. -/
def htmlFillLoop (sprintf : String → List String → Except Fault String) :
    List String → String → Except Fault String
  | [], msgURL => Except.ok msgURL
  | word :: words, msgURL =>
    match sprintf msgURL [url.PathEscape word] with
    | Except.ok msgURL' => htmlFillLoop sprintf words msgURL'
    | Except.error e => Except.error e

/-- The request target that `goqueryScraper` builds for one row and passes to the getter.
`capture[1:]` panics on a row without elements. -/
def htmlRequestTarget (sprintf : String → List String → Except Fault String)
    (config : GoQueryScraperConfig) (capture : List String) : Except Fault String :=
  match capture with
  | [] => Except.error (Fault.panic Panic.sliceBounds)
  | _ :: words => htmlFillLoop sprintf words config.URL

/-- The field that the body of the loop over the rows in `goqueryScraper` appends for one
row, with the call of the getter. `rReply` and `rTitle` are the draws of the random source
in the two calls of `selectorCaptureToString`, the reply first. -/
def htmlRow (sprintf : String → List String → Except Fault String)
    (config : GoQueryScraperConfig) (htmlGetter : String → HTMLFetch)
    (rReply rTitle : Nat) (capture : List String) : Run MessageField :=
  Run.andThen (Run.lift (htmlRequestTarget sprintf config capture)) (fun msgURL =>
  Run.andThen (Run.emit (Event.fetch msgURL)) (fun _ =>
    match htmlGetter msgURL with
    | HTMLFetch.page redirect text doc =>
      if text = "" then
        Run.andThen (Run.lift (sprintf "Webpage not found at %s" [redirect])) (fun value =>
          Run.ret { Field := msgURL, Value := value, URL := "" })
      else
        Run.andThen (Run.lift (selectorCaptureToString sprintf doc config.ReplySelector rReply))
          (fun msgCapture =>
        Run.andThen (Run.lift (selectorCaptureToString sprintf doc config.TitleSelector rTitle))
          (fun title =>
            Run.ret { Field := title, Value := msgCapture, URL := redirect }))
    | HTMLFetch.parseError _ =>
      Run.ret
        { Field := msgURL, Value := "An error occurred when processing the webpage.", URL := "" }
    | HTMLFetch.getterError =>
      Run.ret
        { Field := "Error", Value := "An error occurred retrieving the webpage.",
          URL := msgURL }))

/-- The loop over the rows in `goqueryScraper`, from row number `j` on: the fields of the
rows, in order. `rand k` is the `k`-th draw of the random source. -/
def htmlRows (sprintf : String → List String → Except Fault String)
    (config : GoQueryScraperConfig) (htmlGetter : String → HTMLFetch)
    (rand : Nat → Nat) : Nat → List (List String) → Run (List MessageField)
  | _, [] => Run.ret []
  | j, capture :: rows =>
    Run.andThen (htmlRow sprintf config htmlGetter (rand (2 * j)) (rand (2 * j + 1)) capture)
      (fun field =>
    Run.andThen (htmlRows sprintf config htmlGetter rand (j + 1) rows) (fun fields =>
      Run.ret (field :: fields)))

/-- Go `goqueryScraper`, with `fmt.Sprintf` as the parameter `sprintf`. The parameters
`user` and `storage` of the source are not used by it; `msg` is the capture set, a nil
slice being the empty list. -/
def goqueryScraper (sprintf : String → List String → Except Fault String)
    (config : GoQueryScraperConfig) (sender : Conversation)
    (msg : List (List String)) (htmlGetter : String → HTMLFetch) (rand : Nat → Nat) :
    Run Unit :=
  let substitutions := strings.Count config.URL "%s"
  if substitutions > 0 ∧ (msg.length = 0 ∨ (msg.headD []).length < substitutions) then
    Run.emit (Event.send sender urlBuildError)
  else
    Run.andThen (htmlRows sprintf config htmlGetter rand 0 msg) (fun fields =>
      Run.emit (Event.send sender
        { Title := config.Title, Description := "", Fields := fields }))

end withSprintf

/-- A stand-in for the library's formatter outside the covered formats, for concrete
inputs: the empty string. -/
def noText : String → List String → String := fun _ _ => ""

/-! ## Vocabulary of the statements on templates -/

/-- The template with its placeholders `%s` replaced from left to right by the values, one
value per placeholder; placeholders for which no value is left stay, values for which no
placeholder is left are not used. -/
def fillPlaceholders : List Char → List String → List Char
  | [], _ => []
  | c :: t, values =>
    if c = Char.ofNat 37 then
      match t, values with
      | d :: t', v :: values' =>
        if d = Char.ofNat 115 then v.data ++ fillPlaceholders t' values'
        else c :: fillPlaceholders (d :: t') (v :: values')
      | d :: t', [] => c :: fillPlaceholders (d :: t') []
      | [], _ => [c]
    else c :: fillPlaceholders t values

/-- The character `%` occurs in the template only as the first character of a placeholder
`%s`. -/
def plainTemplate : List Char → Bool
  | [] => true
  | c :: t =>
    if c = Char.ofNat 37 then
      match t with
      | d :: t' => d = Char.ofNat 115 && plainTemplate t'
      | [] => false
    else plainTemplate t

/-- The number of placeholders `%s` of a template, read from the left. -/
def placeholders : List Char → Nat
  | [] => 0
  | c :: t =>
    if c = Char.ofNat 37 then
      match t with
      | d :: t' => if d = Char.ofNat 115 then placeholders t' + 1 else placeholders (d :: t')
      | [] => 0
    else placeholders t

/-- No `%` of the text is followed by `s` or stands at its end: wherever the text is put,
it brings no placeholder and cannot start one. -/
def percentSafe : List Char → Bool
  | [] => true
  | c :: t =>
    if c = Char.ofNat 37 then
      match t with
      | d :: t' => d ≠ Char.ofNat 115 && percentSafe (d :: t')
      | [] => false
    else percentSafe t

/-- The value that `selectorCaptureToString` substitutes for each selector, by position:
the candidate text at `index`, trimmed, then changed by the first rule of the selector
whose search text occurs in the trimmed text. -/
def substitutedValues (doc : Document) (replacements : List (List (String × String)))
    (index : Nat) (selectors : List String) : List String :=
  selectors.enum.map (fun js =>
    let trimmed := strings.TrimSpace ((doc js.2).getD index "")
    match (replacements.getD js.1 []).find? (fun rule => strings.Contains trimmed rule.1) with
    | some rule => strings.ReplaceAll trimmed rule.1 rule.2
    | none => trimmed)

/-! ## Fixtures of the concrete statements -/

/-- A document in which every selector matches one node, whose text has white space around
it. -/
def paddedDocument : Document := fun _ => [" Hello! "]

/-- A conversation for concrete inputs. -/
def sampleConversation : Conversation :=
  { ServiceID := "demo", ConversationID := "0", GuildID := "0", Admin := false }

/-- A JSON command for concrete inputs: the URL has one placeholder, one capture gives the
field (name, body) of a payload, no token is configured. -/
def sampleJSONConfig (grouped : Bool) : JSONGetterConfig :=
  { Trigger := "!json", Capture := "(.*)", Title := { Template := "Result", Selectors := [] },
    Captures := [{ Title := { Template := "%s", Selectors := ["name"] },
                   Body := { Template := "%s", Selectors := ["body"] } }],
    URL := "https://x/%s", Help := "", Description := "All results", Grouped := grouped,
    Delay := 0, Token := { Type_ := "", Prefix := "", Postfix := "", Size := 0 } }

/-- A getter for concrete inputs: the targets https://x/a and https://x/b give one JSON
object each, every other target fails. -/
def sampleJSONGetter : String → JSONFetch := fun target =>
  if target = "https://x/a" then
    JSONFetch.object
      (GoMap.entries [("name", JSONValue.str "A"), ("body", JSONValue.str "first")])
  else if target = "https://x/b" then
    JSONFetch.object
      (GoMap.entries [("name", JSONValue.str "B"), ("body", JSONValue.str "second")])
  else JSONFetch.getterError

/-- An HTML command for concrete inputs: the URL has one placeholder, the reply is the
first node that matches "h1", the title is fixed. -/
def sampleScraperConfig : GoQueryScraperConfig :=
  { Title := "Scrape", Trigger := "!scrape", Capture := "(.*)",
    TitleSelector := { Template := "Title", Selectors := [], HandleMultiple := "",
                       Replacements := [] },
    URL := "https://x/%s",
    ReplySelector := { Template := "%s", Selectors := ["h1"], HandleMultiple := "First",
                       Replacements := [] },
    Help := "" }

/-- A getter for concrete inputs: every target gives the sample document, with the target
as resolved url. -/
def sampleHTMLGetter : String → HTMLFetch := fun target =>
  HTMLFetch.page target "Alpha Beta Gamma one two" sampleDocument

/-! ## The store a call leaves, and the admin commands of `src/command` -/

/-- Go `TempStorage.SetAdmin` as a step on the store: the store when the call ends, and the
panic that ended it, if any. A panic ends the call at the statement that raises it, so the
store is as the statements before it left it; `panic(ok)` is raised after the read by
`GetGuildValue` and before any call of `SetGuildValue`. (`SetGuildValue` itself never
panics, see `SetGuildValue_eq`.) -/
def SetAdminStep (t : TempStorage) (guild : Guild) (ID : String) : TempStorage × Option Panic :=
  match GetGuildValue t guild adminKey with
  | (val, none) =>
    match val with
    | Value.strings currentAdmins =>
      match SetGuildValue t guild adminKey (Value.strings (currentAdmins ++ [ID])) with
      | Except.ok t' => (t', none)
      | Except.error p => (t, some p)
    | _ => (t, some (Panic.assertion false))
  | (_, some _) =>
    match SetGuildValue t guild adminKey (Value.strings [ID]) with
    | Except.ok t' => (t', none)
    | Except.error p => (t, some p)

/-- A run of a handler that works on the store: the store it leaves, the events in order,
and the value returned or the fault that stopped the run. -/
structure StoreRun where
  store : TempStorage
  events : List Event
  result : Except Fault Unit

/-- Go `msg[0][1]`: a run-time panic "index out of range" when the capture set has no row
or its first row has fewer than two elements. -/
def firstArgument (msg : List (List String)) : Except Panic String :=
  match msg with
  | [] => Except.error Panic.indexOutOfRange
  | row :: _ =>
    match row with
    | _ :: arg :: _ => Except.ok arg
    | _ => Except.error Panic.indexOutOfRange

namespace command

/-- Go `UnsetAdmin` of `src/command/unsetAdmin.go`, on a `TempStorage`. The argument
`msg[0][1]` is evaluated before the call of the store; a panic of the store's `UnsetAdmin`
is raised before it writes. The parameter `user` of the source is not used. -/
def UnsetAdmin (sender : Conversation) (msg : List (List String)) (storage : TempStorage) :
    StoreRun :=
  if sender.Admin then
    let guild : Guild := { ServiceID := sender.ServiceID, GuildID := sender.GuildID }
    match firstArgument msg with
    | Except.error p => { store := storage, events := [], result := Except.error (Fault.panic p) }
    | Except.ok ID =>
      match FLDBot.UnsetAdmin storage guild ID with
      | Except.error p =>
        { store := storage, events := [], result := Except.error (Fault.panic p) }
      | Except.ok storage' =>
        { store := storage',
          events := [Event.send sender
            { Title := "", Description := "Admin has been unset.", Fields := [] }],
          result := Except.ok () }
  else { store := storage, events := [], result := Except.ok () }

/-- Go `CheckAdmin` of `src/command/check_admin.go`, on a `TempStorage`. The parameter
`user` of the source is not used. -/
def CheckAdmin (sender : Conversation) (msg : List (List String)) (storage : TempStorage) :
    StoreRun :=
  let guild : Guild := { ServiceID := sender.ServiceID, GuildID := sender.GuildID }
  match firstArgument msg with
  | Except.error p => { store := storage, events := [], result := Except.error (Fault.panic p) }
  | Except.ok ID =>
    if IsAdmin storage guild ID then
      { store := storage,
        events := [Event.send sender
          { Title := "", Description := ID ++ " is an admin.", Fields := [] }],
        result := Except.ok () }
    else
      { store := storage,
        events := [Event.send sender
          { Title := "", Description := ID ++ " is not an admin.", Fields := [] }],
        result := Except.ok () }

end command

/-! ## `CommandParameter` of `src/command/command.go` -/

/-- Go `CommandParameter`. The field `Type` of the source is `Type_` here. -/
structure CommandParameter where
  Type_ : String
  Name : String
  Description : String
  deriving DecidableEq, Repr

/-- Go `INPUTS`: the parser registered for a type name, `none` for a name that is not a key
of the map. A parser returns the pair `(value, err)`, `err = none` being Go's nil error.
The library functions `strings.ToLower` and `strconv.Atoi` are the parameters `toLower` and
`atoi`. -/
def INPUTS (toLower : String → String) (atoi : String → Int × Option String) (name : String) :
    Option (String → Value × Option String) :=
  if name = "string" then some (fun input => (Value.str input, none))
  else if name = "int" then
    some (fun input =>
      match atoi input with
      | (_, some err) => (Value.nil, some err)
      | (val, none) => (Value.int val, none))
  else if name = "bool" then
    some (fun input =>
      if toLower input = "true" then (Value.bool true, none)
      else if toLower input = "false" then (Value.bool false, none)
      else (Value.bool false, some "parsing error"))
  else none

/-- Go `CommandParameter.ParseInput`: `INPUTS[c.Type](input)`. For a type name that is not a
key of `INPUTS` the map gives the nil function, and calling it panics. -/
def CommandParameter.ParseInput (toLower : String → String)
    (atoi : String → Int × Option String) (c : CommandParameter) (input : String) :
    Except Panic (Value × Option String) :=
  match INPUTS toLower atoi c.Type_ with
  | some parse => Except.ok (parse input)
  | none => Except.error Panic.nilDereference

/-! ## Fixtures of the concrete statements on handlers -/

/-- A store in which the admin value of the guild is the string "corrupt", not a list. -/
def storeWithBadAdminValue (guild : Guild) : TempStorage :=
  { UserValues := GoMap.nilMap,
    GuildValues := GoMap.entries [(guild.ServiceID, GoMap.entries [(guild.GuildID,
      GoMap.entries [(adminKey, Value.str "corrupt")])])] }

/-- A getter for concrete inputs: the target https://x/z fails, the target https://x/e gives
a document without text, every other target gives the sample document. -/
def mixedHTMLGetter : String → HTMLFetch := fun target =>
  if target = "https://x/z" then HTMLFetch.getterError
  else if target = "https://x/e" then HTMLFetch.page "https://y/e" "" sampleDocument
  else HTMLFetch.page target "Alpha Beta Gamma one two" sampleDocument

/-- A getter for concrete inputs: the target https://x/z fails, the payload of
https://x/y is not a JSON object, the other targets are those of `sampleJSONGetter`. -/
def mixedJSONGetter : String → JSONFetch := fun target =>
  if target = "https://x/z" then JSONFetch.getterError
  else if target = "https://x/y" then JSONFetch.invalidJSON
  else sampleJSONGetter target

/-- A conversation of guild ("demo", "0") whose sender has the Admin flag. -/
def adminConversation : Conversation :=
  { ServiceID := "demo", ConversationID := "0", GuildID := "0", Admin := true }

/-! ## Lemmas on maps -/

theorem lookup_filter_ne {V : Type} (es : List (String × V)) (k k' : String) (h : k' ≠ k) :
    List.lookup k' (es.filter (fun e => e.1 != k)) = List.lookup k' es := by
  induction es with
  | nil => rfl
  | cons e es ih =>
    obtain ⟨a, b⟩ := e
    by_cases hak : a = k
    · subst hak
      have hk : (k' == a) = false := by simpa using h
      simp [List.filter, List.lookup, hk, ih]
    · have hne : (a != k) = true := by simpa using hak
      simp only [List.filter, hne, List.lookup, ih]

theorem GoMap.lookup_put {V : Type} (m : GoMap V) (k : String) (v : V) (k' : String) :
    (m.put k v).lookup k' = if k' = k then some v else m.lookup k' := by
  unfold GoMap.put
  by_cases h : k' = k
  · subst h
    simp [GoMap.lookup, List.lookup]
  · have hk : (k' == k) = false := by simpa using h
    cases m with
    | nilMap => simp [GoMap.lookup, GoMap.toEntries, List.lookup, hk, h]
    | entries es =>
      simp [GoMap.lookup, GoMap.toEntries, List.lookup, hk, h, lookup_filter_ne es k k' h]

theorem GoMap.assign_of_not_nil {V : Type} (m : GoMap V) (k : String) (v : V)
    (h : m.isNil = false) : m.assign k v = Except.ok (m.put k v) := by
  cases m with
  | nilMap => simp [GoMap.isNil] at h
  | entries es => rfl

theorem GoMap.put_not_nil {V : Type} (m : GoMap V) (k : String) (v : V) :
    (m.put k v).isNil = false := rfl

theorem GoMap.index_put_self {V : Type} [Inhabited V] (m : GoMap V) (k : String) (v : V) :
    (m.put k v).index k = v := by
  simp [GoMap.index, GoMap.lookup_put]

theorem GoMap.put_put {V : Type} (m : GoMap V) (k : String) (a b : V) :
    (m.put k a).put k b = m.put k b := by
  simp [GoMap.put, GoMap.toEntries, List.filter_filter]

theorem GoMap.eq_nilMap_of_isNil {V : Type} (m : GoMap V) (h : m.isNil = true) :
    m = GoMap.nilMap := by
  cases m with
  | nilMap => rfl
  | entries es => simp [GoMap.isNil] at h

theorem GoMap.index_nilMap {V : Type} [Inhabited V] (k : String) :
    (GoMap.nilMap : GoMap V).index k = default := rfl

theorem GoMap.index_make {V : Type} [Inhabited V] (k : String) :
    (GoMap.make : GoMap V).index k = default := rfl

theorem GoMap.default_eq {V : Type} : (default : GoMap V) = GoMap.nilMap := rfl

theorem GoMap.isNil_nilMap {V : Type} : (GoMap.nilMap : GoMap V).isNil = true := rfl

theorem GoMap.isNil_make {V : Type} : (GoMap.make : GoMap V).isNil = false := rfl

theorem GoMap.put_nilMap {V : Type} (k : String) (v : V) :
    (GoMap.nilMap : GoMap V).put k v = (GoMap.make : GoMap V).put k v := rfl

theorem SetGuildValue_eq (t : TempStorage) (guild : Guild) (key : String) (val : Value) :
    SetGuildValue t guild key val = Except.ok
      { t with GuildValues :=
          (t.GuildValues.put guild.ServiceID
            ((t.GuildValues.index guild.ServiceID).put guild.GuildID
              (((t.GuildValues.index guild.ServiceID).index guild.GuildID).put key val))) } := by
  obtain ⟨uv, gv⟩ := t
  obtain ⟨sid, gid⟩ := guild
  unfold SetGuildValue
  simp only []
  cases h0 : gv.isNil
  · cases h1 : (gv.index sid).isNil
    · cases h2 : ((gv.index sid).index gid).isNil
      · simp [h0, h1, h2, GoMap.assign_of_not_nil, GoMap.put_not_nil, GoMap.index_put_self,
          GoMap.put_put, bind, Except.bind, pure, Except.pure]
      · have e2 := GoMap.eq_nilMap_of_isNil _ h2
        simp [h0, h1, e2, GoMap.assign_of_not_nil, GoMap.put_not_nil, GoMap.index_put_self,
          GoMap.put_put, bind, Except.bind, pure, Except.pure, GoMap.isNil_nilMap,
          GoMap.isNil_make, GoMap.put_nilMap]
    · have e1 := GoMap.eq_nilMap_of_isNil _ h1
      simp [h0, e1, GoMap.assign_of_not_nil, GoMap.put_not_nil, GoMap.index_put_self,
        GoMap.put_put, bind, Except.bind, pure, Except.pure, GoMap.isNil_nilMap,
        GoMap.isNil_make, GoMap.put_nilMap, GoMap.index_nilMap, GoMap.index_make,
        GoMap.default_eq]
  · have e0 := GoMap.eq_nilMap_of_isNil _ h0
    subst e0
    simp [GoMap.assign_of_not_nil, GoMap.put_not_nil, GoMap.index_put_self,
      GoMap.put_put, bind, Except.bind, pure, Except.pure, GoMap.isNil_nilMap,
      GoMap.isNil_make, GoMap.put_nilMap, GoMap.index_nilMap, GoMap.index_make,
      GoMap.default_eq]

theorem GoMap.lookup_nilMap {V : Type} (k : String) :
    (GoMap.nilMap : GoMap V).lookup k = none := rfl

theorem GoMap.index_of_lookup_none {V : Type} [Inhabited V] (m : GoMap V) (k : String)
    (h : m.lookup k = none) : m.index k = default := by
  simp [GoMap.index, h]

theorem GoMap.index_put {V : Type} [Inhabited V] (m : GoMap V) (k : String) (v : V)
    (k' : String) : (m.put k v).index k' = if k' = k then v else m.index k' := by
  unfold GoMap.index
  rw [GoMap.lookup_put]
  split <;> rfl

/-- Reading a guild value after a write: the written entry holds the new value, every other
entry is as before. -/
theorem GetGuildValue_SetGuildValue (t t' : TempStorage) (guild : Guild) (key : String)
    (val : Value) (h : SetGuildValue t guild key val = Except.ok t')
    (guild' : Guild) (key' : String) :
    GetGuildValue t' guild' key' =
      if guild' = guild ∧ key' = key then (val, none) else GetGuildValue t guild' key' := by
  rw [SetGuildValue_eq] at h
  injection h with h
  subst h
  obtain ⟨uv, gv⟩ := t
  obtain ⟨sid, gid⟩ := guild
  obtain ⟨sid', gid'⟩ := guild'
  by_cases hs : sid' = sid
  · subst hs
    by_cases hg : gid' = gid
    · subst hg
      by_cases hk : key' = key
      · subst hk
        simp [GetGuildValue, GoMap.lookup_put, GoMap.index_put]
      · simp only [GetGuildValue, GoMap.lookup_put, GoMap.index_put, hk, if_true, if_false,
          Guild.mk.injEq, and_false, and_self, true_and]
        cases h1 : gv.lookup sid' with
        | none => simp [GoMap.index_of_lookup_none _ _ h1, GoMap.default_eq, GoMap.lookup_nilMap,
            GoMap.index_nilMap]
        | some svc =>
          cases h2 : (gv.index sid').lookup gid' with
          | none => simp [GoMap.index_of_lookup_none _ _ h2, GoMap.default_eq, GoMap.lookup_nilMap]
          | some leaf => rfl
    · simp only [GetGuildValue, GoMap.lookup_put, GoMap.index_put, hg, if_true, if_false,
        Guild.mk.injEq, and_false, false_and, and_self, true_and]
      cases h1 : gv.lookup sid' with
      | none => simp [GoMap.index_of_lookup_none _ _ h1, GoMap.default_eq, GoMap.lookup_nilMap,
            GoMap.index_nilMap]
      | some svc => rfl
  · simp [GetGuildValue, GoMap.lookup_put, GoMap.index_put, hs]

/-! ## Lemmas on the admin list -/

theorem unsetLoop_eq_filter (ID : String) (l acc : List String) :
    l.foldl (fun newAdmins adminID => if adminID != ID then newAdmins ++ [adminID] else newAdmins)
      acc = acc ++ l.filter (fun a => a != ID) := by
  induction l generalizing acc with
  | nil => simp
  | cons a l ih =>
    rw [List.foldl_cons, ih, List.filter_cons]
    by_cases h : a = ID
    · have hne : (a != ID) = false := by simpa using h
      simp [hne]
    · have hne : (a != ID) = true := by simpa using h
      simp [hne]

theorem IsAdmin_of_list (t : TempStorage) (guild : Guild) (l : List String)
    (h : GetGuildValue t guild adminKey = (Value.strings l, none)) (ID : String) :
    IsAdmin t guild ID = l.any (fun adminID => adminID == ID) := by
  simp [IsAdmin, h]

theorem IsAdmin_of_absent (t : TempStorage) (guild : Guild)
    (h : (GetGuildValue t guild adminKey).2 ≠ none) (ID : String) :
    IsAdmin t guild ID = false := by
  unfold IsAdmin
  split
  · rename_i val heq
    rw [heq] at h
    exact absurd rfl h
  · rfl

theorem adminValue_cases (t : TempStorage) (guild : Guild)
    (h : adminValueAbsentOrList t guild = true) :
    (∃ l, GetGuildValue t guild adminKey = (Value.strings l, none)) ∨
      (∃ v e, GetGuildValue t guild adminKey = (v, some e)) := by
  unfold adminValueAbsentOrList at h
  split at h
  · rename_i l heq
    exact Or.inl ⟨l, heq⟩
  · simp at h
  · rename_i v e heq
    exact Or.inr ⟨v, e, heq⟩

theorem SetAdmin_of_list (t : TempStorage) (guild : Guild) (l : List String)
    (h : GetGuildValue t guild adminKey = (Value.strings l, none)) (ID : String) :
    SetAdmin t guild ID = SetGuildValue t guild adminKey (Value.strings (l ++ [ID])) := by
  simp [SetAdmin, h]

theorem SetAdmin_of_absent (t : TempStorage) (guild : Guild) (v : Value) (e : String)
    (h : GetGuildValue t guild adminKey = (v, some e)) (ID : String) :
    SetAdmin t guild ID = SetGuildValue t guild adminKey (Value.strings [ID]) := by
  simp [SetAdmin, h]

theorem UnsetAdmin_of_list (t : TempStorage) (guild : Guild) (l : List String)
    (h : GetGuildValue t guild adminKey = (Value.strings l, none)) (ID : String) :
    UnsetAdmin t guild ID =
      SetGuildValue t guild adminKey (Value.strings (l.filter (fun a => a != ID))) := by
  simp only [UnsetAdmin, h]
  rw [unsetLoop_eq_filter, List.nil_append]

theorem UnsetAdmin_of_absent (t : TempStorage) (guild : Guild) (v : Value) (e : String)
    (h : GetGuildValue t guild adminKey = (v, some e)) (ID : String) :
    UnsetAdmin t guild ID = SetGuildValue t guild adminKey (Value.strings []) := by
  simp [UnsetAdmin, h]

theorem GetGuildValue_written (t t' : TempStorage) (guild : Guild) (key : String)
    (val : Value) (h : SetGuildValue t guild key val = Except.ok t') :
    GetGuildValue t' guild key = (val, none) := by
  rw [GetGuildValue_SetGuildValue t t' guild key val h]
  simp

theorem SetGuildValue_ok (t : TempStorage) (guild : Guild) (key : String) (val : Value) :
    ∃ t', SetGuildValue t guild key val = Except.ok t' :=
  ⟨_, SetGuildValue_eq t guild key val⟩

/-! ## The admin list: claims C1 to C5 -/

/-- C1: when the guild's admin value is absent or is a list of ids, `SetAdmin(g, x)`
returns normally and afterwards `IsAdmin(g, x)` is true. -/
theorem C1_setAdmin_then_isAdmin (t : TempStorage) (g : Guild) (x : String)
    (h : adminValueAbsentOrList t g = true) :
    ∃ t', SetAdmin t g x = Except.ok t' ∧ IsAdmin t' g x = true := by
  rcases adminValue_cases t g h with ⟨l, hl⟩ | ⟨v, e, he⟩
  · obtain ⟨t', ht'⟩ := SetGuildValue_ok t g adminKey (Value.strings (l ++ [x]))
    refine ⟨t', by rw [SetAdmin_of_list t g l hl, ht'], ?_⟩
    rw [IsAdmin_of_list t' g _ (GetGuildValue_written t t' g adminKey _ ht')]
    simp
  · obtain ⟨t', ht'⟩ := SetGuildValue_ok t g adminKey (Value.strings [x])
    refine ⟨t', by rw [SetAdmin_of_absent t g v e he, ht'], ?_⟩
    rw [IsAdmin_of_list t' g _ (GetGuildValue_written t t' g adminKey _ ht')]
    simp

/-- C1 at the zero-value store, guild ("demo", "0") and id "U1". -/
theorem C1_setAdmin_then_isAdmin_witness :
    adminValueAbsentOrList TempStorage.zero ⟨"demo", "0"⟩ = true ∧
      ∃ t', SetAdmin TempStorage.zero ⟨"demo", "0"⟩ "U1" = Except.ok t' ∧
        IsAdmin t' ⟨"demo", "0"⟩ "U1" = true :=
  ⟨by decide, C1_setAdmin_then_isAdmin TempStorage.zero ⟨"demo", "0"⟩ "U1" (by decide)⟩

/-- C2: when the guild's admin value is absent or is a list of ids (whatever the number
of occurrences of `x` in it), `UnsetAdmin(g, x)` returns normally and afterwards
`IsAdmin(g, x)` is false. -/
theorem C2_unsetAdmin_then_not_isAdmin (t : TempStorage) (g : Guild) (x : String)
    (h : adminValueAbsentOrList t g = true) :
    ∃ t', UnsetAdmin t g x = Except.ok t' ∧ IsAdmin t' g x = false := by
  rcases adminValue_cases t g h with ⟨l, hl⟩ | ⟨v, e, he⟩
  · obtain ⟨t', ht'⟩ := SetGuildValue_ok t g adminKey (Value.strings (l.filter (fun a => a != x)))
    refine ⟨t', by rw [UnsetAdmin_of_list t g l hl, ht'], ?_⟩
    rw [IsAdmin_of_list t' g _ (GetGuildValue_written t t' g adminKey _ ht')]
    simp
  · obtain ⟨t', ht'⟩ := SetGuildValue_ok t g adminKey (Value.strings [])
    refine ⟨t', by rw [UnsetAdmin_of_absent t g v e he, ht'], ?_⟩
    rw [IsAdmin_of_list t' g _ (GetGuildValue_written t t' g adminKey _ ht')]
    simp

/-- C2 at a store whose admin list for guild ("demo", "0") holds "U1" twice. -/
theorem C2_unsetAdmin_then_not_isAdmin_witness :
    adminValueAbsentOrList
        (storeWithAdmins ⟨"demo", "0"⟩ ["U1", "U2", "U1"]) ⟨"demo", "0"⟩ = true ∧
      ∃ t', UnsetAdmin
          (storeWithAdmins ⟨"demo", "0"⟩ ["U1", "U2", "U1"]) ⟨"demo", "0"⟩ "U1" =
            Except.ok t' ∧
        IsAdmin t' ⟨"demo", "0"⟩ "U1" = false :=
  ⟨by decide, C2_unsetAdmin_then_not_isAdmin _ ⟨"demo", "0"⟩ "U1" (by decide)⟩

/-- C3, as stated, fails: on the duplicate-free admin list ["U1"], `SetAdmin(g, "U1")`
stores ["U1", "U1"], a different list, which holds "U1" twice. -/
theorem C3_setAdmin_duplicates_counterexample :
    GetGuildValue
        (storeWithAdmins ⟨"demo", "0"⟩ ["U1"]) ⟨"demo", "0"⟩ adminKey =
        (Value.strings ["U1"], none) ∧
      ∃ t', SetAdmin
          (storeWithAdmins ⟨"demo", "0"⟩ ["U1"]) ⟨"demo", "0"⟩ "U1" = Except.ok t' ∧
        GetGuildValue t' ⟨"demo", "0"⟩ adminKey = (Value.strings ["U1", "U1"], none) ∧
        GetGuildValue t' ⟨"demo", "0"⟩ adminKey ≠ (Value.strings ["U1"], none) ∧
        ¬ (["U1", "U1"] : List String).Nodup :=
  ⟨by decide, _, rfl, by decide, by decide, by decide⟩

/-- C3, amended: for a guild with stored admin list `L`, `SetAdmin(g, x)` returns normally
and stores `L ++ [x]`, whether or not `x` is in `L`; when `x` is already in `L` the answer
of `IsAdmin(g, y)` is the same before and after, for every `y`. -/
theorem C3_setAdmin_appends (t : TempStorage) (g : Guild) (x : String) (L : List String)
    (h : GetGuildValue t g adminKey = (Value.strings L, none)) :
    ∃ t', SetAdmin t g x = Except.ok t' ∧
      GetGuildValue t' g adminKey = (Value.strings (L ++ [x]), none) ∧
      (x ∈ L → ∀ y, IsAdmin t' g y = IsAdmin t g y) := by
  obtain ⟨t', ht'⟩ := SetGuildValue_ok t g adminKey (Value.strings (L ++ [x]))
  have hw := GetGuildValue_written t t' g adminKey _ ht'
  refine ⟨t', by rw [SetAdmin_of_list t g L h, ht'], hw, ?_⟩
  intro hx y
  rw [IsAdmin_of_list t' g _ hw, IsAdmin_of_list t g _ h]
  by_cases hy : y = x
  · subst hy
    simp [hx]
  · have hyx : (x == y) = false := by simpa using fun e => hy e.symm
    simp [hyx]

/-- C3 amended, at the admin list ["U1", "U2"] and id "U1". -/
theorem C3_setAdmin_appends_witness :
    GetGuildValue
        (storeWithAdmins ⟨"demo", "0"⟩ ["U1", "U2"]) ⟨"demo", "0"⟩ adminKey =
        (Value.strings ["U1", "U2"], none) ∧
      ∃ t', SetAdmin
          (storeWithAdmins ⟨"demo", "0"⟩ ["U1", "U2"]) ⟨"demo", "0"⟩ "U1" = Except.ok t' ∧
        GetGuildValue t' ⟨"demo", "0"⟩ adminKey = (Value.strings (["U1", "U2"] ++ ["U1"]), none) ∧
        ("U1" ∈ ["U1", "U2"] → ∀ y, IsAdmin t' ⟨"demo", "0"⟩ y =
          IsAdmin
            (storeWithAdmins ⟨"demo", "0"⟩ ["U1", "U2"]) ⟨"demo", "0"⟩ y) :=
  ⟨by decide, C3_setAdmin_appends _ ⟨"demo", "0"⟩ "U1" ["U1", "U2"] (by decide)⟩

/-- C4: for a guild with stored admin list `L`, `UnsetAdmin(g, x)` returns normally and
stores `L` without the occurrences of `x`, the other ids in their original order; the
answer of `IsAdmin(g, y)` is unchanged for every `y` other than `x`. -/
theorem C4_unsetAdmin_removes_exactly (t : TempStorage) (g : Guild) (x : String)
    (L : List String) (h : GetGuildValue t g adminKey = (Value.strings L, none)) :
    ∃ t', UnsetAdmin t g x = Except.ok t' ∧
      GetGuildValue t' g adminKey = (Value.strings (L.filter (fun a => decide (a ≠ x))), none) ∧
      ∀ y, y ≠ x → IsAdmin t' g y = IsAdmin t g y := by
  obtain ⟨t', ht'⟩ := SetGuildValue_ok t g adminKey (Value.strings (L.filter (fun a => a != x)))
  have hw := GetGuildValue_written t t' g adminKey _ ht'
  have hf : L.filter (fun a => a != x) = L.filter (fun a => decide (a ≠ x)) := by
    congr 1
    funext a
    by_cases hax : a = x <;> simp [hax]
  refine ⟨t', by rw [UnsetAdmin_of_list t g L h, ht'], by rw [← hf]; exact hw, ?_⟩
  intro y hy
  rw [IsAdmin_of_list t' g _ hw, IsAdmin_of_list t g _ h]
  rw [Bool.eq_iff_iff]
  simp only [List.any_eq_true, List.mem_filter, beq_iff_eq, bne_iff_ne]
  constructor
  · rintro ⟨a, ⟨ha, -⟩, rfl⟩
    exact ⟨a, ha, rfl⟩
  · rintro ⟨a, ha, rfl⟩
    exact ⟨a, ⟨ha, hy⟩, rfl⟩

/-- C4 on the scenario of the specification: from the zero-value store, after
`SetAdmin(G, "U1")` and `SetAdmin(G, "U2")` the stored list is ["U1", "U2"]; after
`UnsetAdmin(G, "U1")` it is ["U2"], "U1" is no admin and "U2" still is. -/
theorem C4_unsetAdmin_removes_exactly_witness :
    (∃ t1 t2, SetAdmin TempStorage.zero ⟨"demo", "0"⟩ "U1" = Except.ok t1 ∧
      SetAdmin t1 ⟨"demo", "0"⟩ "U2" = Except.ok t2 ∧
      t2 = storeWithAdmins ⟨"demo", "0"⟩ ["U1", "U2"]) ∧
    GetGuildValue (storeWithAdmins ⟨"demo", "0"⟩ ["U1", "U2"]) ⟨"demo", "0"⟩ adminKey =
      (Value.strings ["U1", "U2"], none) ∧
    ∃ t', UnsetAdmin (storeWithAdmins ⟨"demo", "0"⟩ ["U1", "U2"]) ⟨"demo", "0"⟩ "U1" =
        Except.ok t' ∧
      GetGuildValue t' ⟨"demo", "0"⟩ adminKey = (Value.strings ["U2"], none) ∧
      IsAdmin t' ⟨"demo", "0"⟩ "U1" = false ∧ IsAdmin t' ⟨"demo", "0"⟩ "U2" = true := by
  refine ⟨⟨_, _, rfl, rfl, by decide⟩, by decide, ?_⟩
  obtain ⟨t', h1, h2, h3⟩ := C4_unsetAdmin_removes_exactly
    (storeWithAdmins ⟨"demo", "0"⟩ ["U1", "U2"]) ⟨"demo", "0"⟩ "U1" ["U1", "U2"] (by decide)
  refine ⟨t', h1, ?_, ?_, ?_⟩
  · rw [h2]; decide
  · rw [IsAdmin_of_list t' _ _ h2]; decide
  · rw [h3 "U2" (by decide)]; decide

/-- C5, as stated, fails: for a guild whose admin list was never stored the lookup of the
admin value fails before `UnsetAdmin(g, "U1")` and finds the empty list after it. -/
theorem C5_unsetAdmin_creates_list_counterexample :
    IsAdmin TempStorage.zero ⟨"demo", "0"⟩ "U1" = false ∧
      GetGuildValue TempStorage.zero ⟨"demo", "0"⟩ adminKey =
        (Value.nil, some "No value for key Admin") ∧
      ∃ t', UnsetAdmin TempStorage.zero ⟨"demo", "0"⟩ "U1" = Except.ok t' ∧
        GetGuildValue t' ⟨"demo", "0"⟩ adminKey = (Value.strings [], none) ∧
        GetGuildValue t' ⟨"demo", "0"⟩ adminKey ≠
          GetGuildValue TempStorage.zero ⟨"demo", "0"⟩ adminKey :=
  ⟨by decide, by decide, _, rfl, by decide, by decide⟩

/-- C5, amended: when the guild's admin value is absent or a list and `x` is not an admin,
`UnsetAdmin(g, x)` returns normally; a stored list `L` is looked up as the same list `L`
afterwards; an absent admin value is replaced by the stored empty list; in both cases the
answer of `IsAdmin(g, y)` is unchanged for every `y`. -/
theorem C5_unsetAdmin_non_member (t : TempStorage) (g : Guild) (x : String)
    (h : adminValueAbsentOrList t g = true) (hx : IsAdmin t g x = false) :
    ∃ t', UnsetAdmin t g x = Except.ok t' ∧
      (∀ L, GetGuildValue t g adminKey = (Value.strings L, none) →
        GetGuildValue t' g adminKey = (Value.strings L, none)) ∧
      ((GetGuildValue t g adminKey).2 ≠ none →
        GetGuildValue t' g adminKey = (Value.strings [], none)) ∧
      ∀ y, IsAdmin t' g y = IsAdmin t g y := by
  rcases adminValue_cases t g h with ⟨l, hl⟩ | ⟨v, e, he⟩
  · obtain ⟨t', ht'⟩ := SetGuildValue_ok t g adminKey (Value.strings (l.filter (fun a => a != x)))
    have hw := GetGuildValue_written t t' g adminKey _ ht'
    have hmem : x ∉ l := by
      rw [IsAdmin_of_list t g l hl] at hx
      intro hmem
      have : l.any (fun adminID => adminID == x) = true :=
        List.any_eq_true.mpr ⟨x, hmem, by simp⟩
      rw [hx] at this
      exact Bool.noConfusion this
    have hf : l.filter (fun a => a != x) = l := by
      rw [List.filter_eq_self]
      intro a ha
      have : a ≠ x := fun e => hmem (e ▸ ha)
      simpa using this
    rw [hf] at hw
    refine ⟨t', by rw [UnsetAdmin_of_list t g l hl, ht'], ?_, ?_, ?_⟩
    · intro L hL
      rw [hl] at hL
      injection hL with h1 _
      injection h1 with h1
      rw [← h1]
      exact hw
    · intro hne
      rw [hl] at hne
      exact absurd rfl hne
    · intro y
      rw [IsAdmin_of_list t' g _ hw, IsAdmin_of_list t g _ hl]
  · obtain ⟨t', ht'⟩ := SetGuildValue_ok t g adminKey (Value.strings [])
    have hw := GetGuildValue_written t t' g adminKey _ ht'
    refine ⟨t', by rw [UnsetAdmin_of_absent t g v e he, ht'], ?_, ?_, ?_⟩
    · intro L hL
      rw [he] at hL
      injection hL with _ h2
      exact Option.noConfusion h2
    · intro _
      exact hw
    · intro y
      rw [IsAdmin_of_list t' g _ hw, IsAdmin_of_absent t g (by rw [he]; simp)]
      rfl

/-- C5 amended, at the stored list ["U2"] and the id "U1", which is not in it. -/
theorem C5_unsetAdmin_non_member_witness :
    adminValueAbsentOrList (storeWithAdmins ⟨"demo", "0"⟩ ["U2"]) ⟨"demo", "0"⟩ = true ∧
    IsAdmin (storeWithAdmins ⟨"demo", "0"⟩ ["U2"]) ⟨"demo", "0"⟩ "U1" = false ∧
    ∃ t', UnsetAdmin (storeWithAdmins ⟨"demo", "0"⟩ ["U2"]) ⟨"demo", "0"⟩ "U1" = Except.ok t' ∧
      GetGuildValue t' ⟨"demo", "0"⟩ adminKey = (Value.strings ["U2"], none) := by
  obtain ⟨t', h1, h2, -, -⟩ := C5_unsetAdmin_non_member
    (storeWithAdmins ⟨"demo", "0"⟩ ["U2"]) ⟨"demo", "0"⟩ "U1" (by decide) (by decide)
  exact ⟨by decide, by decide, t', h1, h2 ["U2"] (by decide)⟩

/-! ## Guild and user values: claims C6 to C8 -/

theorem lastWritten_nil (g : Guild) (k : String) : lastWritten [] g k = none := rfl

theorem lastWritten_cons (w : GuildWrite) (ws : List GuildWrite) (g : Guild) (k : String) :
    lastWritten (w :: ws) g k =
      match lastWritten ws g k with
      | some v => some v
      | none => if w.guild = g ∧ w.key = k then some w.val else none := by
  unfold lastWritten
  rw [List.reverse_cons, List.find?_append]
  cases h : List.find? (fun w => decide (w.guild = g ∧ w.key = k)) ws.reverse with
  | some w' => simp
  | none =>
    by_cases hw : w.guild = g ∧ w.key = k
    · simp [List.find?, hw]
    · simp [List.find?, hw]

theorem applyGuildWrites_spec (ws : List GuildWrite) (t : TempStorage) (g : Guild)
    (k : String) :
    ∃ t', applyGuildWrites t ws = Except.ok t' ∧
      GetGuildValue t' g k =
        match lastWritten ws g k with
        | some v => (v, none)
        | none => GetGuildValue t g k := by
  induction ws generalizing t with
  | nil => exact ⟨t, rfl, by simp [lastWritten_nil]⟩
  | cons w ws ih =>
    obtain ⟨t1, ht1⟩ := SetGuildValue_ok t w.guild w.key w.val
    obtain ⟨t', ht', hget⟩ := ih t1
    refine ⟨t', by simp [applyGuildWrites, ht1, ht'], ?_⟩
    rw [hget, lastWritten_cons]
    cases hl : lastWritten ws g k with
    | some v => rfl
    | none =>
      simp only []
      rw [GetGuildValue_SetGuildValue t t1 w.guild w.key w.val ht1 g k]
      by_cases hw : w.guild = g ∧ w.key = k
      · obtain ⟨h1, h2⟩ := hw
        subst h1 h2
        simp
      · have hw' : ¬ (g = w.guild ∧ k = w.key) := fun h => hw ⟨h.1.symm, h.2.symm⟩
        simp [hw, hw']

/-- C6: from any store, every sequence of `SetGuildValue` calls returns normally, and
afterwards `GetGuildValue(g, k)` returns, with no error, the value of the most recent call
of the sequence for `(g, k)`, whatever the calls for other guilds or keys; when the
sequence has no call for `(g, k)` the lookup is as before the sequence, and it is the
error "No value for key k" when the sequence started from the zero-value store. -/
theorem C6_guild_values_last_write_wins (t : TempStorage) (ws : List GuildWrite) (g : Guild)
    (k : String) :
    (∃ t', applyGuildWrites t ws = Except.ok t' ∧
      GetGuildValue t' g k =
        match lastWritten ws g k with
        | some v => (v, none)
        | none => GetGuildValue t g k) ∧
    (∃ t0, applyGuildWrites TempStorage.zero ws = Except.ok t0 ∧
      (lastWritten ws g k = none →
        GetGuildValue t0 g k = (Value.nil, some (noValueError k)))) := by
  refine ⟨applyGuildWrites_spec ws t g k, ?_⟩
  obtain ⟨t0, h0, hget⟩ := applyGuildWrites_spec ws TempStorage.zero g k
  refine ⟨t0, h0, ?_⟩
  intro hl
  rw [hget, hl]
  rfl

/-- C6 on a concrete sequence from the zero-value store: two writes of key "prefix" for one
guild with a write for another guild in between; the later value is read, and a key that
was not written is not found. -/
theorem C6_guild_values_last_write_wins_example :
    ∃ t', applyGuildWrites TempStorage.zero
        [⟨⟨"demo", "0"⟩, "prefix", Value.str "!"⟩, ⟨⟨"demo", "1"⟩, "prefix", Value.str "?"⟩,
          ⟨⟨"demo", "0"⟩, "prefix", Value.str "#"⟩] = Except.ok t' ∧
      GetGuildValue t' ⟨"demo", "0"⟩ "prefix" = (Value.str "#", none) ∧
      GetGuildValue t' ⟨"demo", "1"⟩ "prefix" = (Value.str "?", none) ∧
      GetGuildValue t' ⟨"demo", "0"⟩ "Admin" = (Value.nil, some "No value for key Admin") :=
  ⟨_, rfl, by decide, by decide, by decide⟩

/-- C7 fails on the code: `SetUserValue` replaces a whole map level whenever a lookup on
its path fails. From the zero-value store, after `SetUserValue("demo", "u", "k1", "v1")`
the value is read back; a later write of another key of the same user, of another user of
the same service, or of another service each makes `GetUserValue("demo", "u", "k1")`
fail. -/
theorem C7_setUserValue_forgets_earlier_writes :
    ∃ t1, SetUserValue TempStorage.zero "demo" "u" "k1" (Value.str "v1") = Except.ok t1 ∧
      GetUserValue t1 "demo" "u" "k1" = (Value.str "v1", none) ∧
      (∃ t2, SetUserValue t1 "demo" "u" "k2" (Value.str "v2") = Except.ok t2 ∧
        GetUserValue t2 "demo" "u" "k1" = (Value.nil, some "No value for key k1")) ∧
      (∃ t2, SetUserValue t1 "demo" "w" "k1" (Value.str "v2") = Except.ok t2 ∧
        GetUserValue t2 "demo" "u" "k1" = (Value.nil, some "No value for key k1")) ∧
      (∃ t2, SetUserValue t1 "other" "u" "k1" (Value.str "v2") = Except.ok t2 ∧
        GetUserValue t2 "demo" "u" "k1" = (Value.nil, some "No value for key k1")) :=
  ⟨_, rfl, by decide, ⟨_, rfl, by decide⟩, ⟨_, rfl, by decide⟩, ⟨_, rfl, by decide⟩⟩

/-- C8 fails on the code: the user methods work on `GuildValues`. On the store that holds
the admin list ["U1"] of guild ("demo", "0"), `SetUserValue("other", "u", "k", "v")` makes
the lookup of the guild's admin value fail and `IsAdmin` answer false; and on the
zero-value store `SetGuildValue(("demo", "0"), "k", "v")` makes
`GetUserValue("demo", "0", "k")` return "v" although no user value was ever written. -/
theorem C8_user_and_guild_values_interfere :
    (GetGuildValue (storeWithAdmins ⟨"demo", "0"⟩ ["U1"]) ⟨"demo", "0"⟩ adminKey =
        (Value.strings ["U1"], none) ∧
      IsAdmin (storeWithAdmins ⟨"demo", "0"⟩ ["U1"]) ⟨"demo", "0"⟩ "U1" = true ∧
      ∃ t', SetUserValue (storeWithAdmins ⟨"demo", "0"⟩ ["U1"]) "other" "u" "k"
          (Value.str "v") = Except.ok t' ∧
        GetGuildValue t' ⟨"demo", "0"⟩ adminKey = (Value.nil, some "No value for key Admin") ∧
        IsAdmin t' ⟨"demo", "0"⟩ "U1" = false) ∧
    (GetUserValue TempStorage.zero "demo" "0" "k" = (Value.nil, some "No value for key k") ∧
      ∃ t', SetGuildValue TempStorage.zero ⟨"demo", "0"⟩ "k" (Value.str "v") = Except.ok t' ∧
        GetUserValue t' "demo" "0" "k" = (Value.str "v", none)) :=
  ⟨⟨by decide, by decide, _, rfl, by decide, by decide⟩, by decide, _, rfl, by decide⟩

/-! ## The token maker: claim C9 -/

theorem hexChars_length (bs : List UInt8) : (hexChars bs).length = 2 * bs.length := by
  induction bs with
  | nil => rfl
  | cons b bs ih => simp [hexChars, ih]; omega

theorem hexDigit_mem (n : Nat) (h : n < 16) : hexDigit n ∈ "0123456789abcdef".data := by
  interval_cases n <;> decide

theorem hexChars_mem (bs : List UInt8) : ∀ c ∈ hexChars bs, c ∈ "0123456789abcdef".data := by
  induction bs with
  | nil => intro c hc; simp [hexChars] at hc
  | cons b bs ih =>
    intro c hc
    simp only [hexChars, List.mem_cons] at hc
    rcases hc with rfl | rfl | hc
    · exact hexDigit_mem _ (Nat.div_lt_of_lt_mul (by have := b.toNat_lt; omega))
    · exact hexDigit_mem _ (Nat.mod_lt _ (by decide))
    · exact ih c hc

theorem sprintfHex_length (d : Digest) : (sprintfHex d).length = 32 := by
  simp [sprintfHex, String.length, hexChars_length, d.size]


/-- C9: with Type "MD5" and `0 <= Size <= 32`, `MakeToken(input)` returns normally the first
`Size` characters of the hexadecimal encoding of `md5Sum(Prefix ++ input ++ Postfix)`, a
token of `Size` characters; that encoding has 32 characters, all of them lowercase
hexadecimal digits; with any other Type the token is empty. -/
theorem C9_makeToken_md5 (md5Sum : List UInt8 → Digest) (t : TokenMaker)
    (input : String) :
    (t.Type_ = "MD5" → 0 ≤ t.Size → t.Size ≤ 32 →
      ∃ token, t.MakeToken md5Sum input = Except.ok token ∧
        token.data =
          (sprintfHex (md5Sum (t.Prefix ++ input ++ t.Postfix).toUTF8.toList)).data.take
            t.Size.toNat ∧
        (token.length : Int) = t.Size) ∧
    (sprintfHex (md5Sum (t.Prefix ++ input ++ t.Postfix).toUTF8.toList)).length = 32 ∧
    (∀ c ∈ (sprintfHex (md5Sum (t.Prefix ++ input ++ t.Postfix).toUTF8.toList)).data,
      c ∈ "0123456789abcdef".data) ∧
    (t.Type_ ≠ "MD5" → t.MakeToken md5Sum input = Except.ok "") := by
  refine ⟨?_, sprintfHex_length _, fun c hc => hexChars_mem _ c hc, ?_⟩
  · intro hT h0 h32
    have hlen := sprintfHex_length (md5Sum (t.Prefix ++ input ++ t.Postfix).toUTF8.toList)
    have hguard : ¬ (t.Size < 0 ∨
        ((sprintfHex (md5Sum (t.Prefix ++ input ++ t.Postfix).toUTF8.toList)).length : Int)
          < t.Size) := by
      rw [hlen]
      push_cast
      omega
    refine ⟨_, by simp only [TokenMaker.MakeToken, hT, if_true, sliceTo, hguard, if_false],
      rfl, ?_⟩
    have hl : (sprintfHex (md5Sum (t.Prefix ++ input ++ t.Postfix).toUTF8.toList)).data.length
        = 32 := hlen
    simp only [String.length, List.length_take, hl]
    omega
  · intro hT
    simp [TokenMaker.MakeToken, hT]

/-- C9 at Type "MD5", Size 8, with the stand-in digest: the token is "d41d8cd9"; and at
the unsupported Type "SHA1": the token is empty. -/
theorem C9_makeToken_md5_witness :
    (∃ token,
      TokenMaker.MakeToken emptyInputDigest ⟨"MD5", "", "", 8⟩ "" = Except.ok token ∧
        token.data = (sprintfHex (emptyInputDigest ("" ++ "" ++ "").toUTF8.toList)).data.take 8 ∧
        (token.length : Int) = 8) ∧
    sprintfHex (emptyInputDigest []) = "d41d8cd98f00b204e9800998ecf8427e" ∧
    TokenMaker.MakeToken emptyInputDigest ⟨"MD5", "", "", 8⟩ "" = Except.ok "d41d8cd9" ∧
    TokenMaker.MakeToken emptyInputDigest ⟨"SHA1", "a", "b", 8⟩ "in" = Except.ok "" :=
  ⟨(C9_makeToken_md5 emptyInputDigest ⟨"MD5", "", "", 8⟩ "").1
      (by decide) (by decide) (by decide),
    by decide, rfl, rfl⟩


/-! ## The selector index: claim C10 -/

theorem commonLength_fold (doc : Document) (l : List String) (acc : Int) :
    ∃ r : Int,
      l.foldl (fun maxLength selector =>
        if ((doc selector).length : Int) < maxLength then ((doc selector).length : Int)
        else maxLength) acc = r ∧
      (r = acc ∨ ∃ s ∈ l, r = ((doc s).length : Int)) ∧ r ≤ acc ∧
      ∀ s ∈ l, r ≤ ((doc s).length : Int) := by
  induction l generalizing acc with
  | nil => exact ⟨acc, rfl, Or.inl rfl, le_refl _, by simp⟩
  | cons a l ih =>
    simp only [List.foldl_cons]
    by_cases h : ((doc a).length : Int) < acc
    · simp only [h, if_true]
      obtain ⟨r, hr, h1, h2, h3⟩ := ih ((doc a).length : Int)
      refine ⟨r, hr, ?_, by omega, ?_⟩
      · rcases h1 with h1 | ⟨s, hs, h1⟩
        · exact Or.inr ⟨a, List.mem_cons_self _ _, h1⟩
        · exact Or.inr ⟨s, List.mem_cons_of_mem _ hs, h1⟩
      · intro s hs
        rcases List.mem_cons.mp hs with rfl | hs
        · exact h2
        · exact h3 s hs
    · simp only [h, if_false]
      obtain ⟨r, hr, h1, h2, h3⟩ := ih acc
      refine ⟨r, hr, ?_, h2, ?_⟩
      · rcases h1 with h1 | ⟨s, hs, h1⟩
        · exact Or.inl h1
        · exact Or.inr ⟨s, List.mem_cons_of_mem _ hs, h1⟩
      · intro s hs
        rcases List.mem_cons.mp hs with rfl | hs
        · omega
        · exact h3 s hs

theorem commonLength_eq_minCandidates (doc : Document) (sc : SelectorCapture)
    (hb : ∀ s ∈ sc.Selectors, ((doc s).length : Int) ≤ maxInt64) :
    commonLength doc sc = (minCandidates doc sc : Int) := by
  unfold commonLength minCandidates
  cases hsel : sc.Selectors with
  | nil => simp
  | cons a l =>
    rw [← hsel]
    have hne : sc.Selectors.length ≠ 0 := by simp [hsel]
    simp only [hne, if_false]
    cases hmin : (sc.Selectors.map (fun selector => (doc selector).length)).min? with
    | none =>
      rw [List.min?_eq_none_iff] at hmin
      simp [hsel] at hmin
    | some n =>
      simp only []
      rw [List.min?_eq_some_iff'] at hmin
      obtain ⟨hmem, hle⟩ := hmin
      obtain ⟨s1, hs1, hn⟩ := List.mem_map.mp hmem
      obtain ⟨r, hr, h1, h2, h3⟩ := commonLength_fold doc sc.Selectors maxInt64
      rw [hr]
      have hrn := h3 s1 hs1
      rw [hn] at hrn
      rcases h1 with h1 | ⟨s0, hs0, h1⟩
      · have := hb s1 hs1
        rw [hn] at this
        omega
      · have := hle _ (List.mem_map.mpr ⟨s0, hs0, rfl⟩)
        omega

/-- C10: when every selector has at most `math.MaxInt64` candidates and the minimum `n` of
the numbers of candidates is positive, `selectorCaptureToString` chooses one index for all
selectors: `n - 1` for HandleMultiple "Last", a number of `[0, n - 1]` for "Random" whatever
the random source draws, and 0 for "First" and for every other value. -/
theorem C10_selector_index (doc : Document) (sc : SelectorCapture) (r : Nat)
    (hb : ∀ s ∈ sc.Selectors, ((doc s).length : Int) ≤ maxInt64)
    (hn : 0 < minCandidates doc sc) :
    ∃ i : Int, selectorCaptureIndex doc sc r = some i ∧
      (sc.HandleMultiple = "Last" → i = (minCandidates doc sc : Int) - 1) ∧
      (sc.HandleMultiple = "Random" → 0 ≤ i ∧ i ≤ (minCandidates doc sc : Int) - 1) ∧
      (sc.HandleMultiple ≠ "Last" → sc.HandleMultiple ≠ "Random" → i = 0) := by
  have hc := commonLength_eq_minCandidates doc sc hb
  have hpos : commonLength doc sc > 0 := by rw [hc]; exact_mod_cast hn
  unfold selectorCaptureIndex
  simp only [hpos, if_true]
  refine ⟨_, rfl, ?_, ?_, ?_⟩
  · intro hL
    have hR : sc.HandleMultiple ≠ "Random" := by rw [hL]; decide
    by_cases h1 : commonLength doc sc - 1 > 0
    · rw [if_pos h1, if_neg hR, if_pos hL, hc]
    · simp only [h1, if_false]
      omega
  · intro hR
    by_cases h1 : commonLength doc sc - 1 > 0
    · simp only [h1, if_true, hR, Int63n]
      have := Int.emod_nonneg (r : Int) (show commonLength doc sc - 1 ≠ 0 by omega)
      have := Int.emod_lt_of_pos (r : Int) h1
      omega
    · simp only [h1, if_false]
      omega
  · intro hL hR
    by_cases h1 : commonLength doc sc - 1 > 0
    · simp only [h1, if_true, hR, hL, if_false]
    · simp only [h1, if_false]


/-- C10 on the sample document with selectors "h1" (three candidates) and "p" (two
candidates): `n = 2`; HandleMultiple "Last" chooses index 1, "Random" with the draw 7
chooses index 0, "First" chooses index 0. -/
theorem C10_selector_index_witness :
    (∀ s ∈ (⟨"%s: %s", ["h1", "p"], "Last", []⟩ : SelectorCapture).Selectors,
      ((sampleDocument s).length : Int) ≤ maxInt64) ∧
    minCandidates sampleDocument ⟨"%s: %s", ["h1", "p"], "Last", []⟩ = 2 ∧
    (∃ i : Int, selectorCaptureIndex sampleDocument ⟨"%s: %s", ["h1", "p"], "Last", []⟩ 7 =
        some i ∧ i = 1) ∧
    selectorCaptureIndex sampleDocument ⟨"%s: %s", ["h1", "p"], "Random", []⟩ 7 = some 0 ∧
    selectorCaptureIndex sampleDocument ⟨"%s: %s", ["h1", "p"], "First", []⟩ 7 = some 0 := by
  have hb : ∀ s ∈ (⟨"%s: %s", ["h1", "p"], "Last", []⟩ : SelectorCapture).Selectors,
      ((sampleDocument s).length : Int) ≤ maxInt64 := by decide
  have hn : minCandidates sampleDocument ⟨"%s: %s", ["h1", "p"], "Last", []⟩ = 2 := by decide
  obtain ⟨i, hi, hL, -, -⟩ :=
    C10_selector_index sampleDocument ⟨"%s: %s", ["h1", "p"], "Last", []⟩ 7 hb (by rw [hn]; decide)
  refine ⟨hb, hn, ⟨i, hi, ?_⟩, by decide, by decide⟩
  rw [hL rfl, hn]
  rfl

/-! ## Lemmas on templates -/

theorem placeholder_data : "%s".data = [Char.ofNat 37, Char.ofNat 115] := rfl

theorem percentSafe_cons_ne (c : Char) (t : List Char) (hc : c ≠ Char.ofNat 37) :
    percentSafe (c :: t) = percentSafe t := by
  cases t <;> simp [percentSafe, hc]

theorem plainTemplate_cons_ne (c : Char) (t : List Char) (hc : c ≠ Char.ofNat 37) :
    plainTemplate (c :: t) = plainTemplate t := by
  cases t <;> simp [plainTemplate, hc]

theorem placeholders_cons_ne (c : Char) (t : List Char) (hc : c ≠ Char.ofNat 37) :
    placeholders (c :: t) = placeholders t := by
  cases t <;> simp [placeholders, hc]

theorem fillPlaceholders_cons_ne (c : Char) (t : List Char) (values : List String)
    (hc : c ≠ Char.ofNat 37) :
    fillPlaceholders (c :: t) values = c :: fillPlaceholders t values := by
  cases t <;> cases values <;> simp [fillPlaceholders, hc]

theorem percentSafe_append (x y : List Char) (hx : percentSafe x = true)
    (hy : percentSafe y = true) : percentSafe (x ++ y) = true := by
  induction x with
  | nil => simpa using hy
  | cons c t ih =>
    by_cases hc : c = Char.ofNat 37
    · cases t with
      | nil => simp [percentSafe, hc] at hx
      | cons d t' =>
        simp only [percentSafe, hc, if_true, Bool.and_eq_true] at hx
        simp only [List.cons_append, percentSafe, hc, if_true, Bool.and_eq_true]
        exact ⟨hx.1, by simpa using ih hx.2⟩
    · rw [percentSafe_cons_ne c t hc] at hx
      rw [List.cons_append, percentSafe_cons_ne c _ hc]
      exact ih hx

theorem percentSafe_of_noPercent (l : List Char) (h : ∀ c ∈ l, c ≠ Char.ofNat 37) :
    percentSafe l = true := by
  induction l with
  | nil => rfl
  | cons c t ih =>
    have hc : c ≠ Char.ofNat 37 := h c (List.mem_cons_self _ _)
    rw [percentSafe_cons_ne c t hc]
    exact ih (fun d hd => h d (List.mem_cons_of_mem _ hd))

theorem replaceFirst_append_safe (e done rest : List Char) (h : percentSafe done = true) :
    strings.replaceFirst [Char.ofNat 37, Char.ofNat 115] e (done ++ rest) =
      done ++ strings.replaceFirst [Char.ofNat 37, Char.ofNat 115] e rest := by
  induction done with
  | nil => rfl
  | cons c t ih =>
    by_cases hc : c = Char.ofNat 37
    · cases t with
      | nil => simp [percentSafe, hc] at h
      | cons d t' =>
        simp only [percentSafe, hc, if_true, Bool.and_eq_true] at h
        have hd : d ≠ Char.ofNat 115 := by simpa using h.1
        have hd' : (Char.ofNat 115 == d) = false := by simpa using fun e => hd e.symm
        have hp : List.isPrefixOf [Char.ofNat 37, Char.ofNat 115] (c :: (d :: t' ++ rest))
            = false := by
          simp [List.isPrefixOf, hd']
        simp only [List.cons_append] at ih hp ⊢
        rw [strings.replaceFirst, hp]
        simp only [Bool.false_eq_true, if_false]
        rw [ih h.2]
    · have hc' : (Char.ofNat 37 == c) = false := by simpa using fun e => hc e.symm
      rw [percentSafe_cons_ne c t hc] at h
      have hp : List.isPrefixOf [Char.ofNat 37, Char.ofNat 115] (c :: (t ++ rest)) = false := by
        simp [List.isPrefixOf, hc']
      simp only [List.cons_append]
      rw [strings.replaceFirst, hp]
      simp only [Bool.false_eq_true, if_false]
      rw [ih h]

theorem replaceFirst_placeholder (e a : List Char) :
    strings.replaceFirst [Char.ofNat 37, Char.ofNat 115] e
      (Char.ofNat 37 :: Char.ofNat 115 :: a) = e ++ a := by
  simp [strings.replaceFirst, List.isPrefixOf]

theorem plain_cases (rest : List Char) (h : plainTemplate rest = true) :
    ((∀ c ∈ rest, c ≠ Char.ofNat 37) ∧ placeholders rest = 0) ∨
    (∃ b a, rest = b ++ Char.ofNat 37 :: Char.ofNat 115 :: a ∧ (∀ c ∈ b, c ≠ Char.ofNat 37) ∧
      plainTemplate a = true ∧ placeholders rest = placeholders a + 1) := by
  induction rest with
  | nil => exact Or.inl ⟨by simp, rfl⟩
  | cons c t ih =>
    by_cases hc : c = Char.ofNat 37
    · cases t with
      | nil => simp [plainTemplate, hc] at h
      | cons d t' =>
        simp only [plainTemplate, hc, if_true, Bool.and_eq_true, decide_eq_true_eq] at h
        obtain ⟨hd, hp⟩ := h
        subst hd
        refine Or.inr ⟨[], t', by simp [hc], by simp, hp, ?_⟩
        simp [placeholders, hc]
    · rw [plainTemplate_cons_ne c t hc] at h
      rcases ih h with ⟨hno, hz⟩ | ⟨b, a, hba, hno, hpa, hcount⟩
      · refine Or.inl ⟨?_, by rw [placeholders_cons_ne c t hc]; exact hz⟩
        intro x hx
        rcases List.mem_cons.mp hx with rfl | hx
        · exact hc
        · exact hno x hx
      · refine Or.inr ⟨c :: b, a, by simp [hba], ?_, hpa,
          by rw [placeholders_cons_ne c t hc]; exact hcount⟩
        intro x hx
        rcases List.mem_cons.mp hx with rfl | hx
        · exact hc
        · exact hno x hx

theorem fillPlaceholders_nil (t : List Char) : fillPlaceholders t [] = t := by
  induction t with
  | nil => rfl
  | cons c t ih =>
    by_cases hc : c = Char.ofNat 37
    · cases t with
      | nil => simp [fillPlaceholders, hc]
      | cons d t' => simp [fillPlaceholders, hc, ih]
    · rw [fillPlaceholders_cons_ne c t [] hc, ih]

theorem fillPlaceholders_noPercent (b : List Char) (h : ∀ c ∈ b, c ≠ Char.ofNat 37)
    (rest : List Char) (values : List String) :
    fillPlaceholders (b ++ rest) values = b ++ fillPlaceholders rest values := by
  induction b with
  | nil => rfl
  | cons c t ih =>
    have hc : c ≠ Char.ofNat 37 := h c (List.mem_cons_self _ _)
    rw [List.cons_append, fillPlaceholders_cons_ne c _ values hc,
      ih (fun d hd => h d (List.mem_cons_of_mem _ hd))]
    rfl

theorem fillPlaceholders_placeholder (a : List Char) (v : String) (values : List String) :
    fillPlaceholders (Char.ofNat 37 :: Char.ofNat 115 :: a) (v :: values) =
      v.data ++ fillPlaceholders a values := by
  simp [fillPlaceholders]


theorem countFrom_eq_placeholders (n : Nat) :
    ∀ l : List Char, l.length ≤ n →
      strings.countFrom [Char.ofNat 37, Char.ofNat 115] 0 l = placeholders l := by
  induction n with
  | zero =>
    intro l hl
    cases l with
    | nil => rfl
    | cons c t => simp at hl
  | succ n ih =>
    intro l hl
    cases l with
    | nil => rfl
    | cons c t =>
      have ht : t.length ≤ n := by simpa using hl
      by_cases hc : c = Char.ofNat 37
      · cases t with
        | nil => simp [strings.countFrom, placeholders, hc, List.isPrefixOf]
        | cons d t' =>
          have ht' : t'.length ≤ n := by simp at ht; omega
          by_cases hd : d = Char.ofNat 115
          · simp [strings.countFrom, placeholders, hc, hd, List.isPrefixOf, ih t' ht']
          · have hd' : (Char.ofNat 115 == d) = false := by simpa using fun e => hd e.symm
            have hp : List.isPrefixOf [Char.ofNat 37, Char.ofNat 115] (c :: d :: t') = false := by
              simp [List.isPrefixOf, hd']
            rw [strings.countFrom, hp]
            simp only [Bool.false_eq_true, if_false]
            rw [ih _ ht]
            simp [placeholders, hc, hd]
      · have hc' : (Char.ofNat 37 == c) = false := by simpa using fun e => hc e.symm
        rw [placeholders_cons_ne c t hc, ← ih t ht]
        simp [strings.countFrom, List.isPrefixOf, hc']

theorem Count_placeholder (s : String) : strings.Count s "%s" = placeholders s.data := by
  simp [strings.Count, placeholder_data, countFrom_eq_placeholders s.data.length s.data]

set_option maxRecDepth 100000 in
theorem escapeByte_safe : ∀ n, n < 256 → percentSafe (url.escapeByte n) = true := by
  decide

theorem escapeBytes_safe (bs : List UInt8) : percentSafe (url.escapeBytes bs) = true := by
  induction bs with
  | nil => rfl
  | cons b bs ih =>
    exact percentSafe_append _ _ (escapeByte_safe b.toNat b.toNat_lt) ih

theorem PathEscape_safe (word : String) : percentSafe (url.PathEscape word).data = true :=
  escapeBytes_safe _

theorem jsonFillLoop_spec (p : Nat) (words : List String) :
    ∀ (i : Nat) (done rest : List Char), percentSafe done = true → plainTemplate rest = true →
      placeholders rest + i = p →
      jsonFillLoop p i words (String.mk (done ++ rest)) =
        String.mk (done ++ fillPlaceholders rest (words.map url.PathEscape)) := by
  induction words with
  | nil =>
    intro i done rest _ _ _
    simp [jsonFillLoop, fillPlaceholders_nil]
  | cons w ws ih =>
    intro i done rest hdone hplain hcount
    rcases plain_cases rest hplain with ⟨hno, hz⟩ | ⟨b, a, hba, hno, hpa, hc⟩
    · have hi : i = p := by omega
      have hf := fillPlaceholders_noPercent rest hno [] ((w :: ws).map url.PathEscape)
      simp only [List.append_nil] at hf
      rw [hf]
      simp [jsonFillLoop, hi, fillPlaceholders]
    · have hi : i ≠ p := by omega
      have hstep : strings.Replace1 (String.mk (done ++ rest)) "%s" (url.PathEscape w) =
          String.mk ((done ++ (b ++ (url.PathEscape w).data)) ++ a) := by
        unfold strings.Replace1
        rw [placeholder_data]
        show String.mk (strings.replaceFirst _ _ (done ++ rest)) = _
        rw [hba, ← List.append_assoc,
          replaceFirst_append_safe _ _ _
            (percentSafe_append _ _ hdone (percentSafe_of_noPercent b hno)),
          replaceFirst_placeholder]
        simp [List.append_assoc]
      have hsafe : percentSafe (done ++ (b ++ (url.PathEscape w).data)) = true :=
        percentSafe_append _ _ hdone
          (percentSafe_append _ _ (percentSafe_of_noPercent b hno) (PathEscape_safe w))
      rw [jsonFillLoop]
      simp only [hi, if_false]
      rw [hstep, ih (i + 1) _ a hsafe hpa (by omega), hba,
        fillPlaceholders_noPercent b hno, List.map_cons, fillPlaceholders_placeholder]
      simp [List.append_assoc]

theorem fillPlaceholders_take (values : List String) :
    ∀ t : List Char, plainTemplate t = true →
      fillPlaceholders t values = fillPlaceholders t (values.take (placeholders t)) := by
  induction values with
  | nil => intro t _; simp
  | cons v vs ih =>
    intro t ht
    rcases plain_cases t ht with ⟨hno, hz⟩ | ⟨b, a, hba, hno, hpa, hc⟩
    · have h1 := fillPlaceholders_noPercent t hno [] (v :: vs)
      have h2 := fillPlaceholders_noPercent t hno [] ((v :: vs).take (placeholders t))
      simp only [List.append_nil] at h1 h2
      rw [h1, h2]
      simp [fillPlaceholders]
    · rw [hc, List.take_succ_cons, hba, fillPlaceholders_noPercent b hno,
        fillPlaceholders_noPercent b hno, fillPlaceholders_placeholder,
        fillPlaceholders_placeholder, ← ih a hpa]


theorem sprintfChars_cons_ne (c : Char) (t : List Char) (a : List String)
    (hc : c ≠ Char.ofNat 37) :
    fmt.sprintfChars (c :: t) a =
      match fmt.sprintfChars t a with
      | Except.ok out => Except.ok (c :: out)
      | Except.error e => Except.error e := by
  cases t <;> simp only [fmt.sprintfChars, hc, if_false]

theorem sprintfChars_noPercent (b : List Char) (h : ∀ c ∈ b, c ≠ Char.ofNat 37)
    (rest : List Char) (a : List String) :
    fmt.sprintfChars (b ++ rest) a =
      match fmt.sprintfChars rest a with
      | Except.ok out => Except.ok (b ++ out)
      | Except.error e => Except.error e := by
  induction b with
  | nil =>
    simp only [List.nil_append]
    cases fmt.sprintfChars rest a <;> rfl
  | cons c t ih =>
    have hc : c ≠ Char.ofNat 37 := h c (List.mem_cons_self _ _)
    rw [List.cons_append, sprintfChars_cons_ne c _ a hc,
      ih (fun d hd => h d (List.mem_cons_of_mem _ hd))]
    cases fmt.sprintfChars rest a <;> rfl

theorem sprintfChars_placeholder (t : List Char) (v : String) (a : List String) :
    fmt.sprintfChars (Char.ofNat 37 :: Char.ofNat 115 :: t) (v :: a) =
      match fmt.sprintfChars t a with
      | Except.ok out => Except.ok (v.data ++ out)
      | Except.error e => Except.error e := by
  rw [fmt.sprintfChars]
  have h1 : ¬ (Char.ofNat 115 = Char.ofNat 37) := by decide
  have h2 : fmt.startsComplexDirective (Char.ofNat 115) = false := by decide
  have h3 : fmt.printString (Char.ofNat 115) v = Except.ok v.data := by
    simp [fmt.printString]
  simp only [if_true, h1, if_false, h2, Bool.false_eq_true, h3]
  cases fmt.sprintfChars t a <;> rfl

theorem sprintfChars_plain (values : List String) :
    ∀ t : List Char, plainTemplate t = true → placeholders t = values.length →
      fmt.sprintfChars t values = Except.ok (fillPlaceholders t values) := by
  induction values with
  | nil =>
    intro t ht hcount
    rcases plain_cases t ht with ⟨hno, _⟩ | ⟨b, a, _, _, _, hc⟩
    · have h1 := sprintfChars_noPercent t hno [] []
      simp only [List.append_nil] at h1
      rw [h1, fillPlaceholders_nil]
      simp [fmt.sprintfChars, fmt.extraOperands]
    · simp at hcount
      omega
  | cons v vs ih =>
    intro t ht hcount
    rcases plain_cases t ht with ⟨_, hz⟩ | ⟨b, a, hba, hno, hpa, hc⟩
    · simp at hcount
      omega
    · have hca : placeholders a = vs.length := by simp at hcount; omega
      rw [hba, sprintfChars_noPercent b hno, sprintfChars_placeholder, ih a hpa hca,
        fillPlaceholders_noPercent b hno, fillPlaceholders_placeholder]

theorem Sprintf_plain (template : String) (values : List String)
    (hplain : plainTemplate template.data = true)
    (hcount : strings.Count template "%s" = values.length) :
    fmt.Sprintf template values =
      Except.ok (String.mk (fillPlaceholders template.data values)) := by
  rw [Count_placeholder] at hcount
  simp [fmt.Sprintf, sprintfChars_plain values template.data hplain hcount]

theorem applyFirstRule_eq_find (rules : List (String × String)) (val : String) :
    applyFirstRule rules val =
      match rules.find? (fun rule => strings.Contains val rule.1) with
      | some rule => strings.ReplaceAll val rule.1 rule.2
      | none => val := by
  induction rules with
  | nil => rfl
  | cons rule rules ih =>
    obtain ⟨search, replace⟩ := rule
    by_cases h : strings.Contains val search = true
    · simp [applyFirstRule, List.find?, h]
    · have h' : strings.Contains val search = false := by simpa using h
      simp [applyFirstRule, List.find?, h', ih]

theorem selectorValues_spec (doc : Document) (replacements : List (List (String × String)))
    (index : Nat) (selectors : List String) :
    ∀ i : Nat, (∀ s ∈ selectors, index < (doc s).length) →
      selectorValues doc replacements index i selectors =
        Except.ok ((selectors.enumFrom i).map (fun js =>
          let trimmed := strings.TrimSpace ((doc js.2).getD index "")
          match (replacements.getD js.1 []).find?
              (fun rule => strings.Contains trimmed rule.1) with
          | some rule => strings.ReplaceAll trimmed rule.1 rule.2
          | none => trimmed)) := by
  induction selectors with
  | nil => intro i _; rfl
  | cons s rest ih =>
    intro i h
    have hs : index < (doc s).length := h s (List.mem_cons_self _ _)
    have hget : (doc s).get? index = some ((doc s).getD index "") := by
      simp [List.getD, List.get?_eq_getElem?, List.getElem?_eq_getElem hs]
    rw [selectorValues, hget]
    simp only []
    rw [ih (i + 1) (fun x hx => h x (List.mem_cons_of_mem _ hx))]
    simp only [List.enumFrom_cons, List.map_cons]
    congr 2
    rw [List.get?_eq_getElem?]
    simp only [List.getD_eq_getElem?_getD]
    cases hr : replacements[i]? with
    | none => simp
    | some rules => simpa using applyFirstRule_eq_find rules _

theorem selectorCaptureIndex_bounds (doc : Document) (sc : SelectorCapture) (r : Nat)
    (hb : ∀ s ∈ sc.Selectors, ((doc s).length : Int) ≤ maxInt64)
    (hn : 0 < minCandidates doc sc) :
    ∃ i : Nat, selectorCaptureIndex doc sc r = some (i : Int) ∧ i < minCandidates doc sc := by
  have hc := commonLength_eq_minCandidates doc sc hb
  have hpos : commonLength doc sc > 0 := by rw [hc]; exact_mod_cast hn
  have key : ∃ idx : Int, selectorCaptureIndex doc sc r = some idx ∧ 0 ≤ idx ∧
      idx < (minCandidates doc sc : Int) := by
    unfold selectorCaptureIndex
    simp only [hpos, if_true]
    refine ⟨_, rfl, ?_⟩
    by_cases h1 : commonLength doc sc - 1 > 0
    · simp only [h1, if_true]
      by_cases hR : sc.HandleMultiple = "Random"
      · simp only [hR, if_true, Int63n]
        have := Int.emod_nonneg (r : Int) (show commonLength doc sc - 1 ≠ 0 by omega)
        have := Int.emod_lt_of_pos (r : Int) h1
        omega
      · simp only [hR, if_false]
        by_cases hL : sc.HandleMultiple = "Last"
        · simp only [hL, if_true]
          omega
        · simp only [hL, if_false]
          omega
    · simp only [h1, if_false]
      omega
  obtain ⟨idx, h1, h2, h3⟩ := key
  refine ⟨idx.toNat, ?_, ?_⟩
  · rw [h1, Int.toNat_of_nonneg h2]
  · omega

theorem minCandidates_le (doc : Document) (sc : SelectorCapture) (s : String)
    (hs : s ∈ sc.Selectors) : minCandidates doc sc ≤ (doc s).length := by
  unfold minCandidates
  cases hmin : (sc.Selectors.map (fun selector => (doc selector).length)).min? with
  | none => simp
  | some n =>
    rw [List.min?_eq_some_iff'] at hmin
    exact hmin.2 _ (List.mem_map.mpr ⟨s, hs, rfl⟩)

/-! ## The selector rendering: claims C11 to C13 -/

/-- C11 fails on the code: under "Random" the index is drawn by `rand.Int63n(n - 1)`, a
number of `[0, n - 2]`. On the sample document, selector "p" has the two candidates "one"
and "two"; whatever the random source draws, index 0 is chosen and "one" is rendered, so
the candidate at index `n - 1 = 1` is never rendered. -/
theorem C11_random_never_draws_last (r : Nat) :
    minCandidates sampleDocument ⟨"%s", ["p"], "Random", []⟩ = 2 ∧
    selectorCaptureIndex sampleDocument ⟨"%s", ["p"], "Random", []⟩ r = some 0 ∧
    selectorCaptureToString sampleDocument ⟨"%s", ["p"], "Random", []⟩ r = Except.ok "one" := by
  have hc : commonLength sampleDocument ⟨"%s", ["p"], "Random", []⟩ = 2 := by decide
  have hi : selectorCaptureIndex sampleDocument ⟨"%s", ["p"], "Random", []⟩ r = some 0 := by
    simp [selectorCaptureIndex, hc, Int63n]
  refine ⟨by decide, hi, ?_⟩
  unfold selectorCaptureToString
  simp only [hc, hi]
  rfl

theorem commonLength_eq_zero (doc : Document) (sc : SelectorCapture)
    (h : minCandidates doc sc = 0) : commonLength doc sc = 0 := by
  unfold commonLength
  cases hsel : sc.Selectors with
  | nil => simp
  | cons a l =>
    rw [← hsel]
    have hne : sc.Selectors.length ≠ 0 := by simp [hsel]
    simp only [hne, if_false]
    unfold minCandidates at h
    cases hmin : (sc.Selectors.map (fun selector => (doc selector).length)).min? with
    | none =>
      rw [List.min?_eq_none_iff] at hmin
      simp [hsel] at hmin
    | some n =>
      rw [hmin] at h
      simp only [] at h
      subst h
      rw [List.min?_eq_some_iff'] at hmin
      obtain ⟨s1, hs1, hn⟩ := List.mem_map.mp hmin.1
      obtain ⟨r, hr, h1, h2, h3⟩ := commonLength_fold doc sc.Selectors maxInt64
      rw [hr]
      have hrn := h3 s1 hs1
      rw [hn] at hrn
      rcases h1 with h1 | ⟨s0, hs0, h1⟩
      · have : (0 : Int) < maxInt64 := by decide
        omega
      · omega

theorem selectorCaptureIndex_of_zero (doc : Document) (sc : SelectorCapture) (r : Nat)
    (h : commonLength doc sc = 0) : selectorCaptureIndex doc sc r = none := by
  simp [selectorCaptureIndex, h]

/-- C12: when the minimum number of candidates over the selectors is 0 (no selector, or a
selector without candidate), `selectorCaptureToString` returns the sentence "There was an
error retrieving information from the webpage." for a template that contains "%s", and the
template itself for a template that does not. -/
theorem C12_no_candidate_fallback (doc : Document) (sc : SelectorCapture) (r : Nat)
    (h : minCandidates doc sc = 0) :
    (strings.Contains sc.Template "%s" = true →
      selectorCaptureToString doc sc r =
        Except.ok "There was an error retrieving information from the webpage.") ∧
    (strings.Contains sc.Template "%s" = false →
      selectorCaptureToString doc sc r = Except.ok sc.Template) := by
  have hc := commonLength_eq_zero doc sc h
  have hi := selectorCaptureIndex_of_zero doc sc r hc
  constructor
  · intro ht
    simp [selectorCaptureToString, hc, ht, retrievalError]
  · intro ht
    simp [selectorCaptureToString, hc, ht, hi]

/-- C12 on the sample document: the title template "Title" with no selector renders as
"Title"; the template "%s" with a selector that matches nothing renders as the error
sentence. -/
theorem C12_no_candidate_fallback_witness :
    minCandidates sampleDocument ⟨"Title", [], "", []⟩ = 0 ∧
    selectorCaptureToString sampleDocument ⟨"Title", [], "", []⟩ 0 = Except.ok "Title" ∧
    minCandidates sampleDocument ⟨"%s", ["h2"], "First", []⟩ = 0 ∧
    selectorCaptureToString sampleDocument ⟨"%s", ["h2"], "First", []⟩ 0 =
      Except.ok "There was an error retrieving information from the webpage." :=
  ⟨by decide,
    (C12_no_candidate_fallback sampleDocument ⟨"Title", [], "", []⟩ 0 (by decide)).2 (by decide),
    by decide,
    (C12_no_candidate_fallback sampleDocument ⟨"%s", ["h2"], "First", []⟩ 0 (by decide)).1
      (by decide)⟩

/-- C13, as stated, fails: the code trims first and applies the rule afterwards. On the
candidate text " Hello! " with the rule that replaces "!" by a space, the value
substituted is "Hello ", which ends in white space; applying the rule first and trimming
afterwards would give "Hello". -/
theorem C13_rule_after_trim_counterexample :
    selectorCaptureToString paddedDocument ⟨"%s", ["h1"], "First", [[("!", " ")]]⟩ 0 =
      Except.ok "Hello " ∧
    strings.TrimSpace (applyFirstRule [("!", " ")] " Hello! ") = "Hello" ∧
    strings.TrimSpace "Hello " ≠ "Hello " :=
  ⟨rfl, rfl, by decide⟩

/-- C13, amended: when every selector has at most `math.MaxInt64` candidates, the minimum
`n` of the numbers of candidates is positive, and the `%` of the template are those of
exactly one placeholder "%s" per selector, `selectorCaptureToString` chooses an index
`i < n` and returns the template with its placeholders replaced, in selector order, by the
values of the selectors; the value of a selector is its candidate text at index `i`,
trimmed first, then changed by the first rule of the selector whose search text occurs in
the trimmed text (all occurrences are replaced, no further rule is applied). -/
theorem C13_values_trimmed_then_replaced (doc : Document) (sc : SelectorCapture) (r : Nat)
    (hb : ∀ s ∈ sc.Selectors, ((doc s).length : Int) ≤ maxInt64)
    (hn : 0 < minCandidates doc sc)
    (hplain : plainTemplate sc.Template.data = true)
    (hcount : strings.Count sc.Template "%s" = sc.Selectors.length) :
    ∃ i : Nat, selectorCaptureIndex doc sc r = some (i : Int) ∧ i < minCandidates doc sc ∧
      selectorCaptureToString doc sc r =
        Except.ok (String.mk (fillPlaceholders sc.Template.data
          (substitutedValues doc sc.Replacements i sc.Selectors))) := by
  obtain ⟨i, hi, hlt⟩ := selectorCaptureIndex_bounds doc sc r hb hn
  refine ⟨i, hi, hlt, ?_⟩
  have hc := commonLength_eq_minCandidates doc sc hb
  have hne : ¬ (commonLength doc sc = 0 ∧ strings.Contains sc.Template "%s" = true) := by
    rw [hc]
    intro h
    have := h.1
    omega
  have hvals := selectorValues_spec doc sc.Replacements i sc.Selectors 0
    (fun s hs => lt_of_lt_of_le hlt (minCandidates_le doc sc s hs))
  have hlen : (substitutedValues doc sc.Replacements i sc.Selectors).length =
      sc.Selectors.length := by
    simp [substitutedValues, List.enum]
  unfold selectorCaptureToString
  simp only [hne, if_false, hi, Int.toNat_ofNat, hvals]
  exact Sprintf_plain sc.Template _ hplain (by rw [hcount]; exact hlen.symm)

/-- C13 amended, on the sample document with the template "%s: %s", the selectors "h1" and
"p", policy "Last" and one rule for the second selector: index 1 is chosen, the values
are "Beta" and "2", and the reply is "Beta: 2". -/
theorem C13_values_trimmed_then_replaced_witness :
    (∀ s ∈ (⟨"%s: %s", ["h1", "p"], "Last", [[], [("two", "2")]]⟩ : SelectorCapture).Selectors,
      ((sampleDocument s).length : Int) ≤ maxInt64) ∧
    0 < minCandidates sampleDocument ⟨"%s: %s", ["h1", "p"], "Last", [[], [("two", "2")]]⟩ ∧
    plainTemplate "%s: %s".data = true ∧
    strings.Count "%s: %s" "%s" = 2 ∧
    (∃ i : Nat,
      selectorCaptureIndex sampleDocument ⟨"%s: %s", ["h1", "p"], "Last", [[], [("two", "2")]]⟩ 7
        = some (i : Int) ∧
      i < minCandidates sampleDocument ⟨"%s: %s", ["h1", "p"], "Last", [[], [("two", "2")]]⟩ ∧
      selectorCaptureToString sampleDocument
          ⟨"%s: %s", ["h1", "p"], "Last", [[], [("two", "2")]]⟩ 7 =
        Except.ok (String.mk (fillPlaceholders "%s: %s".data
          (substitutedValues sampleDocument [[], [("two", "2")]] i ["h1", "p"])))) ∧
    selectorCaptureToString sampleDocument
        ⟨"%s: %s", ["h1", "p"], "Last", [[], [("two", "2")]]⟩ 7 = Except.ok "Beta: 2" :=
  ⟨by decide, by decide, by decide, by decide,
    C13_values_trimmed_then_replaced sampleDocument
      ⟨"%s: %s", ["h1", "p"], "Last", [[], [("two", "2")]]⟩ 7 (by decide) (by decide)
      (by decide) (by decide),
    rfl⟩

/-! ## `ToStringWithMap`: claims C14 and C15 -/

/-- C14 fails on the code: `ToStringWithMap` calls `fmt.Sprintf(out, val)` once per present
selector, with one operand. With the template "%s-%s" and both selectors present, the first
call leaves "1-%!s(MISSING)" and the second makes "1-%!!(string=2)s(MISSING)" of it, for
`SelectorCapture` and for `FieldCapture` alike; with one selector present the second
placeholder does not stay "%s". -/
theorem C14_toStringWithMap_two_selectors :
    SelectorCapture.ToStringWithMap ⟨"%s-%s", ["a", "b"], "", []⟩
        (GoMap.entries [("a", "1"), ("b", "2")]) =
      Except.ok ("1-%!!(string=2)s(MISSING)", none) ∧
    FieldCapture.ToStringWithMap ⟨"%s-%s", ["a", "b"]⟩
        (GoMap.entries [("a", JSONValue.str "1"), ("b", JSONValue.str "2")]) =
      Except.ok ("1-%!!(string=2)s(MISSING)", none) ∧
    SelectorCapture.ToStringWithMap ⟨"%s-%s", ["a", "b"], "", []⟩
        (GoMap.entries [("a", "1")]) =
      Except.ok ("1-%!s(MISSING)", none) ∧
    String.mk (fillPlaceholders "%s-%s".data ["1", "2"]) = "1-2" :=
  ⟨rfl, rfl, rfl, rfl⟩

/-- C15 fails on the code: the type assertion `val.(string)` of
`FieldCapture.ToStringWithMap` has no check. On the decoded object with "id" bound to the
number 5, the template "%s" with selector "id" panics. -/
theorem C15_fieldCapture_panics_on_number :
    FieldCapture.ToStringWithMap ⟨"%s", ["id"]⟩
        (GoMap.entries [("id", JSONValue.number "5")]) =
      Except.error (Fault.panic Panic.interfaceConversion) ∧
    FieldCapture.ToStringWithMap ⟨"%s", ["id"]⟩ (GoMap.entries [("id", JSONValue.null)]) =
      Except.error (Fault.panic Panic.interfaceConversion) :=
  ⟨rfl, rfl⟩

/-! ## The request targets: claims C16 and C17 -/

/-- C16, as stated, fails: the loop replaces the first "%s" of the current string at each
step, so a `%` of the template followed by a value can become a placeholder. With the URL
"x/%%s/%s" (two placeholders) and the captured values "s" and "v", the getter is called
with "x/v/%s", while replacing the two placeholders of the template from left to right
gives "x/%s/v". -/
theorem C16_json_target_counterexample :
    strings.Count "x/%%s/%s" "%s" = 2 ∧
    jsonRequestTarget emptyInputDigest
        { Trigger := "", Capture := "", Title := ⟨"", []⟩, Captures := [], URL := "x/%%s/%s",
          Help := "", Description := "", Grouped := false, Delay := 0,
          Token := ⟨"", "", "", 0⟩ }
        ["s v", "s", "v"] = Except.ok "x/v/%s" ∧
    String.mk (fillPlaceholders "x/%%s/%s".data (["s", "v"].map url.PathEscape)) =
      "x/%s/v" :=
  ⟨rfl, rfl, rfl⟩

/-- C16, amended: for a URL template in which `%` occurs only in its placeholders "%s", a
row with whole match `whole` and captured values `words`, and a token maker that returns
`token` on the concatenation of the captured values, the request target of the JSON
command is the template with its placeholders replaced from left to right by the
path-escaped captured values, followed by `token`; only the first `p` values are used, `p`
being the number of placeholders; and the getter is called with this target first. -/
theorem C16_json_request_target (md5Sum : List UInt8 → Digest) (config : JSONGetterConfig)
    (sender : Conversation) (jsonGetter : String → JSONFetch) (fields : List MessageField)
    (whole : String) (words : List String) (token : String)
    (hplain : plainTemplate config.URL.data = true)
    (htoken : config.Token.MakeToken md5Sum (strings.Join words "") = Except.ok token) :
    jsonRequestTarget md5Sum config (whole :: words) =
      Except.ok (String.mk (fillPlaceholders config.URL.data (words.map url.PathEscape))
        ++ token) ∧
    fillPlaceholders config.URL.data (words.map url.PathEscape) =
      fillPlaceholders config.URL.data
        ((words.take (strings.Count config.URL "%s")).map url.PathEscape) ∧
    (jsonRow md5Sum config sender jsonGetter (whole :: words) fields).events.head? =
      some (Event.fetch (String.mk (fillPlaceholders config.URL.data
        (words.map url.PathEscape)) ++ token)) := by
  have hloop : jsonFillLoop (strings.Count config.URL "%s") 0 words config.URL =
      String.mk (fillPlaceholders config.URL.data (words.map url.PathEscape)) :=
    jsonFillLoop_spec (strings.Count config.URL "%s") words 0 [] config.URL.data
      rfl hplain (by rw [Count_placeholder]; rfl)
  have htarget : jsonRequestTarget md5Sum config (whole :: words) =
      Except.ok (String.mk (fillPlaceholders config.URL.data (words.map url.PathEscape))
        ++ token) := by
    unfold jsonRequestTarget
    simp only [htoken, liftPanic, hloop]
  refine ⟨htarget, ?_, ?_⟩
  · have h := fillPlaceholders_take (words.map url.PathEscape) config.URL.data hplain
    rw [h, Count_placeholder, List.map_take]
  · unfold jsonRow
    rw [htarget]
    simp [Run.andThen, Run.lift, Run.emit]

/-- C16 amended, on the URL "https://x/%s" with the row ["a b c", "a b", "c"] and a token
maker of type "MD5" and size 8 with the stand-in digest: the target is
"https://x/a%20b" followed by the token "d41d8cd9"; the second captured value is not
used in the URL. -/
theorem C16_json_request_target_witness :
    plainTemplate "https://x/%s".data = true ∧
    TokenMaker.MakeToken emptyInputDigest ⟨"MD5", "", "", 8⟩ (strings.Join ["a b", "c"] "") =
      Except.ok "d41d8cd9" ∧
    jsonRequestTarget emptyInputDigest
        { Trigger := "", Capture := "", Title := ⟨"", []⟩, Captures := [],
          URL := "https://x/%s", Help := "", Description := "", Grouped := false, Delay := 0,
          Token := ⟨"MD5", "", "", 8⟩ }
        ("a b c" :: ["a b", "c"]) =
      Except.ok (String.mk (fillPlaceholders "https://x/%s".data
        (["a b", "c"].map url.PathEscape)) ++ "d41d8cd9") ∧
    String.mk (fillPlaceholders "https://x/%s".data (["a b", "c"].map url.PathEscape)) ++
      "d41d8cd9" = "https://x/a%20bd41d8cd9" :=
  ⟨by decide, rfl,
    (C16_json_request_target emptyInputDigest
      { Trigger := "", Capture := "", Title := ⟨"", []⟩, Captures := [],
        URL := "https://x/%s", Help := "", Description := "", Grouped := false, Delay := 0,
        Token := ⟨"MD5", "", "", 8⟩ }
      sampleConversation sampleJSONGetter [] "a b c" ["a b", "c"] "d41d8cd9"
      (by decide) rfl).1,
    rfl⟩

/-- C17 fails on the code: `goqueryScraper` calls `fmt.Sprintf(msgURL, word)` for every
captured value. With the URL "https://x/%s" and the row ["a b", "a", "b"] the second call
appends the text for an extra operand: the getter is called with
"https://x/a%!(EXTRA string=b)", not with "https://x/a". -/
theorem C17_html_extra_value_changes_target :
    htmlRequestTarget sampleScraperConfig ["a b", "a", "b"] =
      Except.ok "https://x/a%!(EXTRA string=b)" ∧
    (goqueryScraper sampleScraperConfig sampleConversation [["a b", "a", "b"]]
        sampleHTMLGetter (fun _ => 0)).events =
      [Event.fetch "https://x/a%!(EXTRA string=b)",
        Event.send sampleConversation
          { Title := "Scrape", Description := "",
            Fields := [{ Field := "Title", Value := "Alpha",
                         URL := "https://x/a%!(EXTRA string=b)" }] }] ∧
    String.mk (fillPlaceholders sampleScraperConfig.URL.data ["a", "b"]) = "https://x/a" :=
  ⟨rfl, rfl, rfl⟩

/-! ## The handlers: claims C18 to C20 -/

/-- C18: when the URL template of the command has at least one placeholder "%s" and the
capture set is empty (or nil), `jsonGetterFunc` and `goqueryScraper` each call the sink
exactly once, with the message whose Description is "An error occurred when building the
url.", call the getter never, and return. -/
theorem C18_empty_capture_set_error (md5Sum : List UInt8 → Digest) (jconfig : JSONGetterConfig)
    (hconfig : GoQueryScraperConfig) (sender : Conversation) (jsonGetter : String → JSONFetch)
    (htmlGetter : String → HTMLFetch) (rand : Nat → Nat)
    (hj : 0 < strings.Count jconfig.URL "%s") (hh : 0 < strings.Count hconfig.URL "%s") :
    (jsonGetterFunc md5Sum jconfig sender [] jsonGetter).events =
      [Event.send sender
        { Title := "", Description := "An error occurred when building the url.",
          Fields := [] }] ∧
    (jsonGetterFunc md5Sum jconfig sender [] jsonGetter).result = Except.ok () ∧
    (goqueryScraper hconfig sender [] htmlGetter rand).events =
      [Event.send sender
        { Title := "", Description := "An error occurred when building the url.",
          Fields := [] }] ∧
    (goqueryScraper hconfig sender [] htmlGetter rand).result = Except.ok () := by
  have hj' : strings.Count jconfig.URL "%s" > 0 := hj
  have hh' : strings.Count hconfig.URL "%s" > 0 := hh
  simp [jsonGetterFunc, goqueryScraper, hj', hh', Run.emit, urlBuildError]

/-- C18 on the sample commands, whose URL "https://x/%s" has one placeholder. -/
theorem C18_empty_capture_set_error_witness :
    0 < strings.Count (sampleJSONConfig false).URL "%s" ∧
    0 < strings.Count sampleScraperConfig.URL "%s" ∧
    (jsonGetterFunc emptyInputDigest (sampleJSONConfig false) sampleConversation []
        sampleJSONGetter).events =
      [Event.send sampleConversation
        { Title := "", Description := "An error occurred when building the url.",
          Fields := [] }] ∧
    (goqueryScraper sampleScraperConfig sampleConversation [] sampleHTMLGetter
        (fun _ => 0)).events =
      [Event.send sampleConversation
        { Title := "", Description := "An error occurred when building the url.",
          Fields := [] }] :=
  have h := C18_empty_capture_set_error emptyInputDigest (sampleJSONConfig false)
    sampleScraperConfig sampleConversation sampleJSONGetter sampleHTMLGetter (fun _ => 0)
    (by decide) (by decide)
  ⟨by decide, by decide, h.1, h.2.2.1⟩

/-- C19 fails on the code: the slice `fields` is declared before the loop over the rows and
sent again in every row. With `Grouped = false` and two rows that give one field each,
the sink is called three times: the field of row 1, then the field of row 1 again and the
field of row 2. -/
theorem C19_json_individual_resends_fields :
    (jsonGetterFunc emptyInputDigest (sampleJSONConfig false) sampleConversation
        [["a", "a"], ["b", "b"]] sampleJSONGetter).events =
      [Event.fetch "https://x/a",
        Event.send sampleConversation { Title := "A", Description := "first", Fields := [] },
        Event.fetch "https://x/b",
        Event.send sampleConversation { Title := "A", Description := "first", Fields := [] },
        Event.send sampleConversation { Title := "B", Description := "second", Fields := [] }] ∧
    (jsonGetterFunc emptyInputDigest (sampleJSONConfig false) sampleConversation
        [["a", "a"], ["b", "b"]] sampleJSONGetter).result = Except.ok () :=
  ⟨rfl, rfl⟩

/-- C20 fails on the code: with `Grouped = true` the sink is called inside the loop over
the rows. Two rows give two messages: the first with the field of row 1, the second with
the fields of rows 1 and 2. -/
theorem C20_json_grouped_sends_per_row :
    (jsonGetterFunc emptyInputDigest (sampleJSONConfig true) sampleConversation
        [["a", "a"], ["b", "b"]] sampleJSONGetter).events =
      [Event.fetch "https://x/a",
        Event.send sampleConversation
          { Title := "Result", Description := "All results",
            Fields := [{ Field := "A", Value := "first", URL := "" }] },
        Event.fetch "https://x/b",
        Event.send sampleConversation
          { Title := "Result", Description := "All results",
            Fields := [{ Field := "A", Value := "first", URL := "" },
                       { Field := "B", Value := "second", URL := "" }] }] ∧
    (jsonGetterFunc emptyInputDigest (sampleJSONConfig true) sampleConversation
        [["a", "a"], ["b", "b"]] sampleJSONGetter).result = Except.ok () :=
  ⟨rfl, rfl⟩

/-! ## Lemmas on faults of the handlers -/

theorem printString_fault (verb : Char) (arg : String) (e : Fault)
    (h : fmt.printString verb arg = Except.error e) : ∃ w, e = Fault.unmodelled w := by
  unfold fmt.printString at h
  split at h
  · cases h
  · split at h
    · cases h
    · split at h
      · injection h with h
        exact ⟨_, h.symm⟩
      · cases h

theorem sprintfChars_fault (n : Nat) :
    ∀ (f : List Char) (a : List String) (e : Fault), f.length ≤ n →
      fmt.sprintfChars f a = Except.error e → ∃ w, e = Fault.unmodelled w := by
  induction n with
  | zero =>
    intro f a e hl h
    cases f with
    | nil => simp [fmt.sprintfChars] at h
    | cons c t => simp at hl
  | succ n ih =>
    intro f a e hl h
    cases f with
    | nil => simp [fmt.sprintfChars] at h
    | cons c rest =>
      have hrest : rest.length ≤ n := by simpa using hl
      by_cases hc : c = Char.ofNat 37
      · cases rest with
        | nil => simp [fmt.sprintfChars, hc] at h
        | cons verb rest' =>
          have hrest' : rest'.length ≤ n := by simp at hrest; omega
          simp only [fmt.sprintfChars, hc, if_true] at h
          split at h
          · cases hr : fmt.sprintfChars rest' a with
            | ok out => simp [hr] at h
            | error e' =>
              simp only [hr] at h
              injection h with h
              subst h
              exact ih rest' a _ hrest' hr
          · split at h
            · injection h with h
              exact ⟨_, h.symm⟩
            · cases a with
              | nil =>
                simp only [] at h
                cases hr : fmt.sprintfChars rest' [] with
                | ok out => simp [hr] at h
                | error e' =>
                  simp only [hr] at h
                  injection h with h
                  subst h
                  exact ih rest' [] _ hrest' hr
              | cons arg a' =>
                simp only [] at h
                cases hp : fmt.printString verb arg with
                | error e' =>
                  simp only [hp] at h
                  injection h with h
                  subst h
                  exact printString_fault verb arg _ hp
                | ok printed =>
                  cases hr : fmt.sprintfChars rest' a' with
                  | ok out => simp [hp, hr] at h
                  | error e' =>
                    simp only [hp, hr] at h
                    injection h with h
                    subst h
                    exact ih rest' a' _ hrest' hr
      · rw [sprintfChars_cons_ne c rest a hc] at h
        cases hr : fmt.sprintfChars rest a with
        | ok out => simp [hr] at h
        | error e' =>
          simp only [hr] at h
          injection h with h
          subst h
          exact ih rest a _ hrest hr

theorem Sprintf_fault (format : String) (a : List String) (e : Fault)
    (h : fmt.Sprintf format a = Except.error e) : ∃ w, e = Fault.unmodelled w := by
  unfold fmt.Sprintf at h
  cases hr : fmt.sprintfChars format.data a with
  | ok out => simp [hr] at h
  | error e' =>
    simp only [hr] at h
    injection h with h
    subst h
    exact sprintfChars_fault _ _ _ _ (le_refl _) hr

theorem htmlFillLoop_fault (words : List String) :
    ∀ (msgURL : String) (e : Fault), htmlFillLoop words msgURL = Except.error e →
      ∃ w, e = Fault.unmodelled w := by
  induction words with
  | nil => intro msgURL e h; simp [htmlFillLoop] at h
  | cons word words ih =>
    intro msgURL e h
    unfold htmlFillLoop at h
    cases hs : fmt.Sprintf msgURL [url.PathEscape word] with
    | ok out =>
      simp only [hs] at h
      exact ih out e h
    | error e' =>
      simp only [hs] at h
      injection h with h
      subst h
      exact Sprintf_fault _ _ _ hs

theorem htmlRequestTarget_fault (config : GoQueryScraperConfig) (row : List String)
    (hrow : row ≠ []) (e : Fault) (h : htmlRequestTarget config row = Except.error e) :
    ∃ w, e = Fault.unmodelled w := by
  cases row with
  | nil => exact absurd rfl hrow
  | cons whole words => exact htmlFillLoop_fault words _ e h

theorem commonLength_le (doc : Document) (sc : SelectorCapture) (s : String)
    (hs : s ∈ sc.Selectors) : commonLength doc sc ≤ ((doc s).length : Int) := by
  unfold commonLength
  have hne : sc.Selectors.length ≠ 0 := by
    intro h0
    have := List.length_eq_zero.mp h0
    rw [this] at hs
    simp at hs
  simp only [hne, if_false]
  obtain ⟨r, hr, -, -, h3⟩ := commonLength_fold doc sc.Selectors maxInt64
  rw [hr]
  exact h3 s hs

theorem selectorCaptureIndex_in_range (doc : Document) (sc : SelectorCapture) (r : Nat)
    (idx : Int) (h : selectorCaptureIndex doc sc r = some idx) :
    ∀ s ∈ sc.Selectors, idx.toNat < (doc s).length := by
  intro s hs
  have hle := commonLength_le doc sc s hs
  unfold selectorCaptureIndex at h
  simp only [] at h
  by_cases hpos : commonLength doc sc > 0
  · simp only [hpos, if_true] at h
    injection h with h
    have hb : 0 ≤ idx ∧ idx ≤ commonLength doc sc - 1 := by
      rw [← h]
      by_cases h1 : commonLength doc sc - 1 > 0
      · simp only [h1, if_true]
        by_cases hR : sc.HandleMultiple = "Random"
        · simp only [hR, if_true, Int63n]
          have := Int.emod_nonneg (r : Int) (show commonLength doc sc - 1 ≠ 0 by omega)
          have := Int.emod_lt_of_pos (r : Int) h1
          omega
        · simp only [hR, if_false]
          by_cases hL : sc.HandleMultiple = "Last"
          · simp only [hL, if_true]
            omega
          · simp only [hL, if_false]
            omega
      · simp only [h1, if_false]
        omega
    omega
  · simp [hpos] at h

theorem selectorCaptureToString_fault (doc : Document) (sc : SelectorCapture) (r : Nat)
    (e : Fault) (h : selectorCaptureToString doc sc r = Except.error e) :
    ∃ w, e = Fault.unmodelled w := by
  unfold selectorCaptureToString at h
  simp only [] at h
  split at h
  · cases h
  · cases hi : selectorCaptureIndex doc sc r with
    | none => simp [hi] at h
    | some idx =>
      have hv := selectorValues_spec doc sc.Replacements idx.toNat sc.Selectors 0
        (selectorCaptureIndex_in_range doc sc r idx hi)
      simp only [hi, hv] at h
      exact Sprintf_fault _ _ _ h


theorem htmlRow_spec (config : GoQueryScraperConfig) (htmlGetter : String → HTMLFetch)
    (rReply rTitle : Nat) (row : List String) (hrow : row ≠ []) :
    (∃ w, (htmlRow config htmlGetter rReply rTitle row).result =
        Except.error (Fault.unmodelled w)) ∨
    (∃ target field, htmlRequestTarget config row = Except.ok target ∧
      (htmlRow config htmlGetter rReply rTitle row).events = [Event.fetch target] ∧
      (htmlRow config htmlGetter rReply rTitle row).result = Except.ok field ∧
      (htmlGetter target = HTMLFetch.getterError →
        field = { Field := "Error", Value := "An error occurred retrieving the webpage.",
                  URL := target })) := by
  cases ht : htmlRequestTarget config row with
  | error e =>
    obtain ⟨w, hw⟩ := htmlRequestTarget_fault config row hrow e ht
    exact Or.inl ⟨w, by simp [htmlRow, Run.andThen, Run.lift, ht, hw]⟩
  | ok target =>
    cases hg : htmlGetter target with
    | getterError =>
      exact Or.inr ⟨target,
        { Field := "Error", Value := "An error occurred retrieving the webpage.", URL := target },
        rfl, by simp [htmlRow, Run.andThen, Run.lift, Run.emit, Run.ret, ht, hg],
        by simp [htmlRow, Run.andThen, Run.lift, Run.emit, Run.ret, ht, hg], fun _ => rfl⟩
    | parseError redirect =>
      exact Or.inr ⟨target,
        { Field := target, Value := "An error occurred when processing the webpage.", URL := "" },
        rfl, by simp [htmlRow, Run.andThen, Run.lift, Run.emit, Run.ret, ht, hg],
        by simp [htmlRow, Run.andThen, Run.lift, Run.emit, Run.ret, ht, hg],
        fun h => by rw [hg] at h; cases h⟩
    | page redirect text doc =>
      by_cases htext : text = ""
      · cases hs : fmt.Sprintf "Webpage not found at %s" [redirect] with
        | error e =>
          obtain ⟨w, hw⟩ := Sprintf_fault _ _ e hs
          exact Or.inl ⟨w, by
            simp [htmlRow, Run.andThen, Run.lift, Run.emit, Run.ret, ht, hg, htext, hs, hw]⟩
        | ok value =>
          exact Or.inr ⟨target, { Field := target, Value := value, URL := "" }, rfl,
            by simp [htmlRow, Run.andThen, Run.lift, Run.emit, Run.ret, ht, hg, htext, hs],
            by simp [htmlRow, Run.andThen, Run.lift, Run.emit, Run.ret, ht, hg, htext, hs],
            fun h => by rw [hg] at h; cases h⟩
      · cases hr : selectorCaptureToString doc config.ReplySelector rReply with
        | error e =>
          obtain ⟨w, hw⟩ := selectorCaptureToString_fault _ _ _ e hr
          exact Or.inl ⟨w, by
            simp [htmlRow, Run.andThen, Run.lift, Run.emit, Run.ret, ht, hg, htext, hr, hw]⟩
        | ok msgCapture =>
          cases hti : selectorCaptureToString doc config.TitleSelector rTitle with
          | error e =>
            obtain ⟨w, hw⟩ := selectorCaptureToString_fault _ _ _ e hti
            exact Or.inl ⟨w, by
              simp [htmlRow, Run.andThen, Run.lift, Run.emit, Run.ret, ht, hg, htext, hr, hti,
                hw]⟩
          | ok title =>
            exact Or.inr ⟨target, { Field := title, Value := msgCapture, URL := redirect }, rfl,
              by simp [htmlRow, Run.andThen, Run.lift, Run.emit, Run.ret, ht, hg, htext, hr, hti],
              by simp [htmlRow, Run.andThen, Run.lift, Run.emit, Run.ret, ht, hg, htext, hr, hti],
              fun h => by rw [hg] at h; cases h⟩

theorem htmlRows_spec (config : GoQueryScraperConfig) (htmlGetter : String → HTMLFetch)
    (rand : Nat → Nat) (rows : List (List String)) :
    ∀ j : Nat, (∀ row ∈ rows, row ≠ []) →
      (∃ w, (htmlRows config htmlGetter rand j rows).result =
          Except.error (Fault.unmodelled w)) ∨
      (∃ tfs : List (String × MessageField),
        (htmlRows config htmlGetter rand j rows).result = Except.ok (tfs.map (fun tf => tf.2)) ∧
        (htmlRows config htmlGetter rand j rows).events =
          tfs.map (fun tf => Event.fetch tf.1) ∧
        List.Forall₂ (fun row tf =>
          htmlRequestTarget config row = Except.ok tf.1 ∧
          (htmlGetter tf.1 = HTMLFetch.getterError →
            tf.2 = { Field := "Error", Value := "An error occurred retrieving the webpage.",
                     URL := tf.1 })) rows tfs) := by
  induction rows with
  | nil =>
    intro j _
    exact Or.inr ⟨[], rfl, rfl, List.Forall₂.nil⟩
  | cons row rows ih =>
    intro j hrows
    have hrow : row ≠ [] := hrows row (List.mem_cons_self _ _)
    have hrest : ∀ r ∈ rows, r ≠ [] := fun r hr => hrows r (List.mem_cons_of_mem _ hr)
    rcases htmlRow_spec config htmlGetter (rand (2 * j)) (rand (2 * j + 1)) row hrow with
      ⟨w, hw⟩ | ⟨target, field, ht, hev, hres, hfail⟩
    · exact Or.inl ⟨w, by simp [htmlRows, Run.andThen, hw]⟩
    · rcases ih (j + 1) hrest with ⟨w, hw⟩ | ⟨tfs, hres', hev', hall⟩
      · exact Or.inl ⟨w, by simp [htmlRows, Run.andThen, hres, hw]⟩
      · refine Or.inr ⟨(target, field) :: tfs, ?_, ?_, List.Forall₂.cons ⟨ht, hfail⟩ hall⟩
        · simp [htmlRows, Run.andThen, Run.ret, hres, hres']
        · simp [htmlRows, Run.andThen, Run.ret, hres, hres', hev, hev']

/-! ## Lemmas on the runs of the HTML handler -/

theorem notFound_value (redirect : String) :
    fmt.Sprintf "Webpage not found at %s" [redirect] =
      Except.ok ("Webpage not found at " ++ redirect) := by
  have hcount : strings.Count "Webpage not found at %s" "%s" = 1 := by decide
  rw [Sprintf_plain "Webpage not found at %s" [redirect] (by decide) hcount]
  have hsplit : "Webpage not found at %s".data =
      "Webpage not found at ".data ++ [Char.ofNat 37, Char.ofNat 115] := by decide
  rw [hsplit, fillPlaceholders_noPercent _ (by decide), fillPlaceholders_placeholder]
  simp [fillPlaceholders, String.ext_iff]

theorem selectorCaptureToString_returns (sc : SelectorCapture)
    (hplain : plainTemplate sc.Template.data = true)
    (hcount : strings.Count sc.Template "%s" = sc.Selectors.length)
    (doc : Document) (r : Nat) : ∃ s, selectorCaptureToString doc sc r = Except.ok s := by
  unfold selectorCaptureToString
  simp only []
  split
  · exact ⟨_, rfl⟩
  · cases hi : selectorCaptureIndex doc sc r with
    | none => exact ⟨_, rfl⟩
    | some idx =>
      have hv := selectorValues_spec doc sc.Replacements idx.toNat sc.Selectors 0
        (selectorCaptureIndex_in_range doc sc r idx hi)
      simp only [hv]
      exact ⟨_, Sprintf_plain _ _ hplain (by simp [hcount])⟩

theorem goqueryScraper_no_panic (config : GoQueryScraperConfig) (sender : Conversation)
    (msg : List (List String)) (htmlGetter : String → HTMLFetch) (rand : Nat → Nat)
    (hrows : ∀ row ∈ msg, row ≠ []) (p : Panic) :
    (goqueryScraper config sender msg htmlGetter rand).result ≠
      Except.error (Fault.panic p) := by
  unfold goqueryScraper
  simp only []
  split
  · simp [Run.emit]
  · rcases htmlRows_spec config htmlGetter rand msg 0 hrows with ⟨w, hw⟩ | ⟨tfs, hres, -, -⟩
    · simp [Run.andThen, hw]
    · simp [Run.andThen, Run.emit, hres]

/-! ## Lemmas on the HTML handler with the formatter as a parameter -/

theorem selectorCaptureToString_eq_withSprintf (doc : Document) (sc : SelectorCapture)
    (r : Nat) :
    selectorCaptureToString doc sc r = withSprintf.selectorCaptureToString fmt.Sprintf doc sc r :=
  rfl

theorem htmlFillLoop_eq_withSprintf (words : List String) :
    ∀ msgURL, htmlFillLoop words msgURL = withSprintf.htmlFillLoop fmt.Sprintf words msgURL := by
  induction words with
  | nil => intro msgURL; rfl
  | cons word words ih =>
    intro msgURL
    simp only [htmlFillLoop, withSprintf.htmlFillLoop]
    cases fmt.Sprintf msgURL [url.PathEscape word] with
    | ok s => exact ih s
    | error e => rfl

theorem htmlRequestTarget_eq_withSprintf (config : GoQueryScraperConfig)
    (capture : List String) :
    htmlRequestTarget config capture =
      withSprintf.htmlRequestTarget fmt.Sprintf config capture := by
  cases capture with
  | nil => rfl
  | cons whole words => exact htmlFillLoop_eq_withSprintf words config.URL

theorem htmlRow_eq_withSprintf (config : GoQueryScraperConfig)
    (htmlGetter : String → HTMLFetch) (rReply rTitle : Nat) (capture : List String) :
    htmlRow config htmlGetter rReply rTitle capture =
      withSprintf.htmlRow fmt.Sprintf config htmlGetter rReply rTitle capture := by
  unfold htmlRow withSprintf.htmlRow
  rw [htmlRequestTarget_eq_withSprintf]
  rfl

theorem htmlRows_eq_withSprintf (config : GoQueryScraperConfig)
    (htmlGetter : String → HTMLFetch) (rand : Nat → Nat) (rows : List (List String)) :
    ∀ j, htmlRows config htmlGetter rand j rows =
      withSprintf.htmlRows fmt.Sprintf config htmlGetter rand j rows := by
  induction rows with
  | nil => intro j; rfl
  | cons row rows ih =>
    intro j
    simp only [htmlRows, withSprintf.htmlRows]
    rw [htmlRow_eq_withSprintf]
    simp only [ih (j + 1)]

theorem goqueryScraper_eq_withSprintf (config : GoQueryScraperConfig) (sender : Conversation)
    (msg : List (List String)) (htmlGetter : String → HTMLFetch) (rand : Nat → Nat) :
    goqueryScraper config sender msg htmlGetter rand =
      withSprintf.goqueryScraper fmt.Sprintf config sender msg htmlGetter rand := by
  unfold goqueryScraper withSprintf.goqueryScraper
  rw [htmlRows_eq_withSprintf]

theorem SprintfTotal_of_ok (beyond : String → List String → String) (format : String)
    (a : List String) (s : String) (h : fmt.Sprintf format a = Except.ok s) :
    fmt.SprintfTotal beyond format a = Except.ok s := by
  simp [fmt.SprintfTotal, h]

theorem SprintfTotal_returns (beyond : String → List String → String) (format : String)
    (a : List String) : ∃ s, fmt.SprintfTotal beyond format a = Except.ok s := by
  unfold fmt.SprintfTotal
  cases fmt.Sprintf format a with
  | ok s => exact ⟨s, rfl⟩
  | error e => exact ⟨beyond format a, rfl⟩

theorem withSprintf_fillLoop_returns (sprintf : String → List String → Except Fault String)
    (htotal : ∀ format a, ∃ s, sprintf format a = Except.ok s) (words : List String) :
    ∀ msgURL, ∃ target, withSprintf.htmlFillLoop sprintf words msgURL = Except.ok target := by
  induction words with
  | nil => intro msgURL; exact ⟨msgURL, rfl⟩
  | cons word words ih =>
    intro msgURL
    obtain ⟨s, hs⟩ := htotal msgURL [url.PathEscape word]
    obtain ⟨target, ht⟩ := ih s
    exact ⟨target, by simp only [withSprintf.htmlFillLoop, hs, ht]⟩

theorem withSprintf_target_returns (sprintf : String → List String → Except Fault String)
    (htotal : ∀ format a, ∃ s, sprintf format a = Except.ok s)
    (config : GoQueryScraperConfig) (row : List String) (hrow : row ≠ []) :
    ∃ target, withSprintf.htmlRequestTarget sprintf config row = Except.ok target := by
  cases row with
  | nil => exact absurd rfl hrow
  | cons whole words => exact withSprintf_fillLoop_returns sprintf htotal words config.URL

theorem withSprintf_render_returns (sprintf : String → List String → Except Fault String)
    (htotal : ∀ format a, ∃ s, sprintf format a = Except.ok s)
    (doc : Document) (sc : SelectorCapture) (r : Nat) :
    ∃ s, withSprintf.selectorCaptureToString sprintf doc sc r = Except.ok s := by
  unfold withSprintf.selectorCaptureToString
  simp only []
  split
  · exact ⟨_, rfl⟩
  · cases hi : selectorCaptureIndex doc sc r with
    | none => exact ⟨_, rfl⟩
    | some idx =>
      have hv := selectorValues_spec doc sc.Replacements idx.toNat sc.Selectors 0
        (selectorCaptureIndex_in_range doc sc r idx hi)
      simp only [hv]
      exact htotal _ _

theorem withSprintf_row_returns (sprintf : String → List String → Except Fault String)
    (htotal : ∀ format a, ∃ s, sprintf format a = Except.ok s)
    (config : GoQueryScraperConfig) (htmlGetter : String → HTMLFetch)
    (rReply rTitle : Nat) (row : List String) (hrow : row ≠ []) :
    ∃ target field,
      withSprintf.htmlRequestTarget sprintf config row = Except.ok target ∧
      withSprintf.htmlRow sprintf config htmlGetter rReply rTitle row =
        { events := [Event.fetch target], result := Except.ok field } ∧
      (htmlGetter target = HTMLFetch.getterError →
        field = { Field := "Error", Value := "An error occurred retrieving the webpage.",
                  URL := target }) := by
  obtain ⟨target, ht⟩ := withSprintf_target_returns sprintf htotal config row hrow
  cases hg : htmlGetter target with
  | getterError =>
    exact ⟨target, { Field := "Error", Value := "An error occurred retrieving the webpage.",
                     URL := target }, ht,
      by simp [withSprintf.htmlRow, Run.andThen, Run.lift, Run.emit, Run.ret, ht, hg],
      fun _ => rfl⟩
  | parseError redirect =>
    exact ⟨target, { Field := target, Value := "An error occurred when processing the webpage.",
                     URL := "" }, ht,
      by simp [withSprintf.htmlRow, Run.andThen, Run.lift, Run.emit, Run.ret, ht, hg],
      fun h => by rw [hg] at h; cases h⟩
  | page redirect text doc =>
    by_cases htext : text = ""
    · obtain ⟨value, hv⟩ := htotal "Webpage not found at %s" [redirect]
      exact ⟨target, { Field := target, Value := value, URL := "" }, ht,
        by simp [withSprintf.htmlRow, Run.andThen, Run.lift, Run.emit, Run.ret, ht, hg, htext,
          hv],
        fun h => by rw [hg] at h; cases h⟩
    · obtain ⟨msgCapture, hr⟩ :=
        withSprintf_render_returns sprintf htotal doc config.ReplySelector rReply
      obtain ⟨title, hti⟩ :=
        withSprintf_render_returns sprintf htotal doc config.TitleSelector rTitle
      exact ⟨target, { Field := title, Value := msgCapture, URL := redirect }, ht,
        by simp [withSprintf.htmlRow, Run.andThen, Run.lift, Run.emit, Run.ret, ht, hg, htext,
          hr, hti],
        fun h => by rw [hg] at h; cases h⟩

theorem withSprintf_rows_return (sprintf : String → List String → Except Fault String)
    (htotal : ∀ format a, ∃ s, sprintf format a = Except.ok s)
    (config : GoQueryScraperConfig) (htmlGetter : String → HTMLFetch)
    (rand : Nat → Nat) (rows : List (List String)) :
    ∀ j : Nat, (∀ row ∈ rows, row ≠ []) →
      ∃ (targets : List String) (fields : List MessageField),
        List.Forall₂ (fun row target =>
          withSprintf.htmlRequestTarget sprintf config row = Except.ok target) rows targets ∧
        withSprintf.htmlRows sprintf config htmlGetter rand j rows =
          { events := targets.map Event.fetch, result := Except.ok fields } ∧
        List.Forall₂ (fun target field =>
          htmlGetter target = HTMLFetch.getterError →
            field = { Field := "Error", Value := "An error occurred retrieving the webpage.",
                      URL := target }) targets fields := by
  induction rows with
  | nil =>
    intro j _
    exact ⟨[], [], List.Forall₂.nil, rfl, List.Forall₂.nil⟩
  | cons row rows ih =>
    intro j hrows
    have hrow : row ≠ [] := hrows row (List.mem_cons_self _ _)
    have hrest : ∀ r ∈ rows, r ≠ [] := fun r hr => hrows r (List.mem_cons_of_mem _ hr)
    obtain ⟨target, field, ht, hrun, hfail⟩ :=
      withSprintf_row_returns sprintf htotal config htmlGetter (rand (2 * j))
        (rand (2 * j + 1)) row hrow
    obtain ⟨targets, fields, hbuilt, hruns, hall⟩ := ih (j + 1) hrest
    refine ⟨target :: targets, field :: fields, List.Forall₂.cons ht hbuilt, ?_,
      List.Forall₂.cons hfail hall⟩
    simp [withSprintf.htmlRows, Run.andThen, Run.ret, hrun, hruns]

theorem withSprintf_uncovered_format_run (beyond : String → List String → String) :
    withSprintf.htmlRequestTarget (fmt.SprintfTotal beyond) sampleScraperConfig
        ["w", "a b", "c"] = Except.ok (beyond "https://x/a%20b" ["c"]) ∧
    withSprintf.goqueryScraper (fmt.SprintfTotal beyond) sampleScraperConfig sampleConversation
        [["w", "a b", "c"]] (fun _ => HTMLFetch.page "https://y/r" "" sampleDocument)
        (fun _ => 0) =
      { events :=
          [Event.fetch (beyond "https://x/a%20b" ["c"]),
            Event.send sampleConversation
              { Title := "Scrape", Description := "",
                Fields := [{ Field := (beyond "https://x/a%20b" ["c"]),
                             Value := "Webpage not found at https://y/r", URL := "" }] }],
        result := Except.ok () } :=
  ⟨rfl, rfl⟩

/-! ## The HTML handler: claim C21 -/

/-- C21: in the HTML command a failed row does not abort the others. For every capture set
whose rows have at least one element each and that the guard of `goqueryScraper` lets
through, every getter, every random source and every formatter that returns (`fmt.Sprintf`
on the formats it covers, any function `beyond` on the others), the handler returns: a
request target is built for every row, the getter is called once per row with the target
of the row, in row order, and then the sink is called exactly once, with a message whose
Fields hold one field per row, in row order. The field of a row whose fetch fails is
("Error", "An error occurred retrieving the webpage.", the request target of the row), and
the rows after it are fetched and rendered as well. -/
theorem C21_html_failed_row_does_not_abort (beyond : String → List String → String)
    (config : GoQueryScraperConfig) (sender : Conversation) (msg : List (List String))
    (htmlGetter : String → HTMLFetch) (rand : Nat → Nat)
    (hrows : ∀ row ∈ msg, row ≠ [])
    (haccepted : ¬ (strings.Count config.URL "%s" > 0 ∧
      (msg.length = 0 ∨ (msg.headD []).length < strings.Count config.URL "%s"))) :
    ∃ (targets : List String) (fields : List MessageField),
      List.Forall₂ (fun row target =>
        withSprintf.htmlRequestTarget (fmt.SprintfTotal beyond) config row =
          Except.ok target) msg targets ∧
      withSprintf.goqueryScraper (fmt.SprintfTotal beyond) config sender msg htmlGetter rand =
        { events := targets.map Event.fetch ++
            [Event.send sender { Title := config.Title, Description := "", Fields := fields }],
          result := Except.ok () } ∧
      List.Forall₂ (fun target field =>
        htmlGetter target = HTMLFetch.getterError →
          field = { Field := "Error", Value := "An error occurred retrieving the webpage.",
                    URL := target }) targets fields := by
  have hrun : withSprintf.goqueryScraper (fmt.SprintfTotal beyond) config sender msg htmlGetter
        rand =
      Run.andThen (withSprintf.htmlRows (fmt.SprintfTotal beyond) config htmlGetter rand 0 msg)
        (fun fields =>
          Run.emit (Event.send sender
            { Title := config.Title, Description := "", Fields := fields })) := by
    simp only [withSprintf.goqueryScraper]
    rw [if_neg haccepted]
  obtain ⟨targets, fields, hbuilt, hrows', hall⟩ :=
    withSprintf_rows_return (fmt.SprintfTotal beyond) (SprintfTotal_returns beyond) config
      htmlGetter rand msg 0 hrows
  refine ⟨targets, fields, hbuilt, ?_, hall⟩
  rw [hrun, hrows']
  rfl

/-- C21 on the sample command with three rows: the fetch of the first row fails, the page
of the second has no text, the third is rendered; the run returns with three fetches and
one message of three fields. -/
theorem C21_html_failed_row_does_not_abort_witness :
    (∀ row ∈ [["z", "z"], ["e", "e"], ["a", "a"]], row ≠ ([] : List String)) ∧
    (¬ (strings.Count sampleScraperConfig.URL "%s" > 0 ∧
      (([["z", "z"], ["e", "e"], ["a", "a"]] : List (List String)).length = 0 ∨
        (([["z", "z"], ["e", "e"], ["a", "a"]] : List (List String)).headD []).length <
          strings.Count sampleScraperConfig.URL "%s"))) ∧
    (∃ (targets : List String) (fields : List MessageField),
      List.Forall₂ (fun row target =>
        withSprintf.htmlRequestTarget (fmt.SprintfTotal noText) sampleScraperConfig row =
          Except.ok target) [["z", "z"], ["e", "e"], ["a", "a"]] targets ∧
      withSprintf.goqueryScraper (fmt.SprintfTotal noText) sampleScraperConfig
          sampleConversation [["z", "z"], ["e", "e"], ["a", "a"]] mixedHTMLGetter
          (fun _ => 0) =
        { events := targets.map Event.fetch ++
            [Event.send sampleConversation
              { Title := sampleScraperConfig.Title, Description := "", Fields := fields }],
          result := Except.ok () } ∧
      List.Forall₂ (fun target field =>
        mixedHTMLGetter target = HTMLFetch.getterError →
          field = { Field := "Error", Value := "An error occurred retrieving the webpage.",
                    URL := target }) targets fields) ∧
    withSprintf.goqueryScraper (fmt.SprintfTotal noText) sampleScraperConfig
        sampleConversation [["z", "z"], ["e", "e"], ["a", "a"]] mixedHTMLGetter (fun _ => 0) =
      { events :=
          [Event.fetch "https://x/z", Event.fetch "https://x/e", Event.fetch "https://x/a",
            Event.send sampleConversation
              { Title := "Scrape", Description := "",
                Fields :=
                  [{ Field := "Error", Value := "An error occurred retrieving the webpage.",
                     URL := "https://x/z" },
                   { Field := "https://x/e", Value := "Webpage not found at https://y/e",
                     URL := "" },
                   { Field := "Title", Value := "Alpha", URL := "https://x/a" }] }],
        result := Except.ok () } :=
  ⟨by decide, by decide,
    C21_html_failed_row_does_not_abort noText sampleScraperConfig sampleConversation
      [["z", "z"], ["e", "e"], ["a", "a"]] mixedHTMLGetter (fun _ => 0) (by decide) (by decide),
    rfl⟩

/-! ## The JSON handler: claim C22 -/

/-- C22 fails on the code: `jsonGetterFunc` has no branch for a getter that returns an
error or for a payload that `json.Unmarshal` rejects. With three rows, the fetch of the
first failing and the payload of the second not being a JSON object, the sink is called
for the third row only: nothing is sent for the two rows that failed. -/
theorem C22_json_failures_send_nothing :
    jsonGetterFunc emptyInputDigest (sampleJSONConfig false) sampleConversation
        [["z", "z"], ["y", "y"], ["a", "a"]] mixedJSONGetter =
      { events :=
          [Event.fetch "https://x/z", Event.fetch "https://x/y", Event.fetch "https://x/a",
            Event.send sampleConversation
              { Title := "A", Description := "first", Fields := [] }],
        result := Except.ok () } ∧
    jsonGetterFunc emptyInputDigest (sampleJSONConfig true) sampleConversation
        [["z", "z"], ["y", "y"]] mixedJSONGetter =
      { events := [Event.fetch "https://x/z", Event.fetch "https://x/y"],
        result := Except.ok () } :=
  ⟨rfl, rfl⟩

/-! ## The admin commands: claims C23 to C26 -/

theorem SetAdminStep_result (t : TempStorage) (guild : Guild) (ID : String) :
    SetAdmin t guild ID =
      match SetAdminStep t guild ID with
      | (t', none) => Except.ok t'
      | (_, some p) => Except.error p := by
  unfold SetAdmin SetAdminStep
  rcases hg : GetGuildValue t guild adminKey with ⟨val, err⟩
  cases err with
  | some e =>
    simp only []
    rw [SetGuildValue_eq]
  | none =>
    cases val <;> first | rfl | (simp only []; rw [SetGuildValue_eq])

theorem adminValue_corrupt (t : TempStorage) (guild : Guild)
    (h : adminValueAbsentOrList t guild = false) :
    ∃ v, GetGuildValue t guild adminKey = (v, none) ∧ ∀ l, v ≠ Value.strings l := by
  unfold adminValueAbsentOrList at h
  split at h
  · simp at h
  · rename_i v hnot hv
    exact ⟨v, hv, fun l hl => hnot l hl⟩
  · simp at h

/-- C23: when the value stored under the guild's admin key exists and is not a list of
ids, `SetAdmin(g, x)` fails with `panic(ok)`, `ok` being false, and the failure is atomic:
the call ends before any write, so the store it leaves is the store it found, for `g` and
for every other guild and key. -/
theorem C23_setAdmin_corrupt_value_fails_atomically (t : TempStorage) (g : Guild) (x : String)
    (h : adminValueAbsentOrList t g = false) :
    SetAdmin t g x = Except.error (Panic.assertion false) ∧
    SetAdminStep t g x = (t, some (Panic.assertion false)) ∧
    ∀ (g' : Guild) (key : String),
      GetGuildValue (SetAdminStep t g x).1 g' key = GetGuildValue t g' key := by
  obtain ⟨v, hv, hnot⟩ := adminValue_corrupt t g h
  have hstep : SetAdminStep t g x = (t, some (Panic.assertion false)) := by
    unfold SetAdminStep
    rw [hv]
    cases v with
    | strings l => exact absurd rfl (hnot l)
    | _ => rfl
  refine ⟨?_, hstep, ?_⟩
  · rw [SetAdminStep_result, hstep]
  · intro g' key
    rw [hstep]

/-- C23 at the store whose admin value for guild ("demo", "0") is the string "corrupt":
after the failed call the value is still that string. -/
theorem C23_setAdmin_corrupt_value_fails_atomically_witness :
    adminValueAbsentOrList (storeWithBadAdminValue ⟨"demo", "0"⟩) ⟨"demo", "0"⟩ = false ∧
    SetAdmin (storeWithBadAdminValue ⟨"demo", "0"⟩) ⟨"demo", "0"⟩ "U1" =
      Except.error (Panic.assertion false) ∧
    GetGuildValue (SetAdminStep (storeWithBadAdminValue ⟨"demo", "0"⟩) ⟨"demo", "0"⟩ "U1").1
        ⟨"demo", "0"⟩ adminKey = (Value.str "corrupt", none) :=
  have h := C23_setAdmin_corrupt_value_fails_atomically
    (storeWithBadAdminValue ⟨"demo", "0"⟩) ⟨"demo", "0"⟩ "U1" (by decide)
  ⟨by decide, h.1, by rw [h.2.2 ⟨"demo", "0"⟩ adminKey]; rfl⟩

theorem UnsetAdmin_clears (t : TempStorage) (g : Guild) (x : String)
    (h : adminValueAbsentOrList t g = true) :
    ∃ t', UnsetAdmin t g x = Except.ok t' ∧ IsAdmin t' g x = false := by
  rcases adminValue_cases t g h with ⟨l, hl⟩ | ⟨v, e, he⟩
  · obtain ⟨t', ht'⟩ := SetGuildValue_ok t g adminKey (Value.strings (l.filter (fun a => a != x)))
    refine ⟨t', by rw [UnsetAdmin_of_list t g l hl, ht'], ?_⟩
    rw [IsAdmin_of_list t' g _ (GetGuildValue_written t t' g adminKey _ ht')]
    simp
  · obtain ⟨t', ht'⟩ := SetGuildValue_ok t g adminKey (Value.strings [])
    refine ⟨t', by rw [UnsetAdmin_of_absent t g v e he, ht'], ?_⟩
    rw [IsAdmin_of_list t' g _ (GetGuildValue_written t t' g adminKey _ ht')]
    simp

/-- C24 as stated fails when the guild's admin value is not a list: for a sender with
Admin = true and first row ["!unset", "U1"], on the store whose admin value for the guild
is the string "corrupt", the `UnsetAdmin` of the store panics and the handler sends no
message. -/
theorem C24_unsetAdmin_command_corrupt_store_counterexample :
    (command.UnsetAdmin adminConversation [["!unset", "U1"]]
        (storeWithBadAdminValue ⟨"demo", "0"⟩)).events = [] ∧
    (command.UnsetAdmin adminConversation [["!unset", "U1"]]
        (storeWithBadAdminValue ⟨"demo", "0"⟩)).result =
      Except.error (Fault.panic (Panic.assertion false)) :=
  ⟨rfl, rfl⟩

/-- C24, amended: the `UnsetAdmin` command is gated on the sender's Admin flag. For a
sender with Admin = false, every capture set and every store, the handler returns, leaves
the store as it is and sends nothing. For a sender with Admin = true, a first row whose
second element is `ID`, and a store in which the admin value of the sender's guild is
absent or is a list of ids, the handler returns, afterwards `IsAdmin(guild, ID)` is false,
and exactly one message is sent, to the sender, with Description "Admin has been
unset.". -/
theorem C24_unsetAdmin_command_gated (sender : Conversation) (msg : List (List String))
    (storage : TempStorage) :
    (sender.Admin = false →
      (command.UnsetAdmin sender msg storage).store = storage ∧
      (command.UnsetAdmin sender msg storage).events = [] ∧
      (command.UnsetAdmin sender msg storage).result = Except.ok ()) ∧
    (sender.Admin = true →
      adminValueAbsentOrList storage ⟨sender.ServiceID, sender.GuildID⟩ = true →
      ∀ (whole ID : String) (more : List String) (rest : List (List String)),
        msg = (whole :: ID :: more) :: rest →
        IsAdmin (command.UnsetAdmin sender msg storage).store
            ⟨sender.ServiceID, sender.GuildID⟩ ID = false ∧
        (command.UnsetAdmin sender msg storage).events =
          [Event.send sender
            { Title := "", Description := "Admin has been unset.", Fields := [] }] ∧
        (command.UnsetAdmin sender msg storage).result = Except.ok ()) := by
  constructor
  · intro hadmin
    simp [command.UnsetAdmin, hadmin]
  · intro hadmin hstore whole ID more rest hmsg
    obtain ⟨t', ht', hnot⟩ :=
      UnsetAdmin_clears storage ⟨sender.ServiceID, sender.GuildID⟩ ID hstore
    subst hmsg
    simp [command.UnsetAdmin, hadmin, firstArgument, ht', hnot]

/-- C24 on the store whose admin list for guild ("demo", "0") is ["U1", "U2"]: a sender
without the Admin flag changes nothing, a sender with it removes "U1". -/
theorem C24_unsetAdmin_command_gated_witness :
    ((command.UnsetAdmin sampleConversation [["!unset", "U1"]]
        (storeWithAdmins ⟨"demo", "0"⟩ ["U1", "U2"])).store =
      storeWithAdmins ⟨"demo", "0"⟩ ["U1", "U2"] ∧
    (command.UnsetAdmin sampleConversation [["!unset", "U1"]]
        (storeWithAdmins ⟨"demo", "0"⟩ ["U1", "U2"])).events = []) ∧
    (IsAdmin (command.UnsetAdmin adminConversation [["!unset", "U1"]]
        (storeWithAdmins ⟨"demo", "0"⟩ ["U1", "U2"])).store ⟨"demo", "0"⟩ "U1" = false ∧
    (command.UnsetAdmin adminConversation [["!unset", "U1"]]
        (storeWithAdmins ⟨"demo", "0"⟩ ["U1", "U2"])).events =
      [Event.send adminConversation
        { Title := "", Description := "Admin has been unset.", Fields := [] }]) :=
  have h1 := (C24_unsetAdmin_command_gated sampleConversation [["!unset", "U1"]]
    (storeWithAdmins ⟨"demo", "0"⟩ ["U1", "U2"])).1 rfl
  have h2 := (C24_unsetAdmin_command_gated adminConversation [["!unset", "U1"]]
    (storeWithAdmins ⟨"demo", "0"⟩ ["U1", "U2"])).2 rfl (by decide) "!unset" "U1" [] [] rfl
  ⟨⟨h1.1, h1.2.1⟩, ⟨h2.1, h2.2.1⟩⟩

/-- C25 fails on the code: `CheckAdmin`, and `UnsetAdmin` called by a sender with the Admin
flag, evaluate `msg[0][1]` without a test of the capture set. On the empty capture set and
on a first row of one element the run is stopped by the panic "index out of range" before
anything is sent. -/
theorem C25_missing_argument_panics (storage : TempStorage) (whole : String) :
    (command.CheckAdmin sampleConversation [] storage).result =
      Except.error (Fault.panic Panic.indexOutOfRange) ∧
    (command.CheckAdmin sampleConversation [] storage).events = [] ∧
    (command.CheckAdmin sampleConversation [[whole]] storage).result =
      Except.error (Fault.panic Panic.indexOutOfRange) ∧
    (command.CheckAdmin sampleConversation [[whole]] storage).events = [] ∧
    (command.UnsetAdmin adminConversation [] storage).result =
      Except.error (Fault.panic Panic.indexOutOfRange) ∧
    (command.UnsetAdmin adminConversation [] storage).events = [] ∧
    (command.UnsetAdmin adminConversation [[whole]] storage).result =
      Except.error (Fault.panic Panic.indexOutOfRange) ∧
    (command.UnsetAdmin adminConversation [[whole]] storage).events = [] :=
  ⟨rfl, rfl, rfl, rfl, rfl, rfl, rfl, rfl⟩

/-- C26: `CheckAdmin` is an unrestricted read-only query. For every sender (whatever its
Admin flag), every store and every capture set whose first row has the second element
`ID`, the handler returns, leaves the store as it is and sends exactly one message, to the
sender: its Description is `ID` followed by " is an admin." when `IsAdmin` holds of the
sender's guild and `ID`, and `ID` followed by " is not an admin." otherwise. -/
theorem C26_checkAdmin_reports (sender : Conversation) (storage : TempStorage)
    (whole ID : String) (more : List String) (rest : List (List String)) :
    (command.CheckAdmin sender ((whole :: ID :: more) :: rest) storage).store = storage ∧
    (command.CheckAdmin sender ((whole :: ID :: more) :: rest) storage).result =
      Except.ok () ∧
    (command.CheckAdmin sender ((whole :: ID :: more) :: rest) storage).events =
      [Event.send sender
        { Title := "",
          Description :=
            if IsAdmin storage ⟨sender.ServiceID, sender.GuildID⟩ ID = true
            then ID ++ " is an admin." else ID ++ " is not an admin.",
          Fields := [] }] := by
  cases h : IsAdmin storage ⟨sender.ServiceID, sender.GuildID⟩ ID <;>
    simp [command.CheckAdmin, firstArgument, h]

/-! ## The page without text: claim C27 -/

/-- C27: in the HTML command, for every row with at least one element and every formatter
that returns (`fmt.Sprintf` on the formats it covers, any function `beyond` on the others),
a request target is built for the row; and when the getter succeeds for that target and
the text of the parsed document is empty, the row gives the field whose Field is the
request target, whose Value is "Webpage not found at " followed by the url that the getter
returned, and whose URL is empty. The field is the same for every document and every draw
of the random source: no selector is evaluated, and the run goes on. -/
theorem C27_html_empty_text_not_found (beyond : String → List String → String)
    (config : GoQueryScraperConfig) (htmlGetter : String → HTMLFetch) (rReply rTitle : Nat)
    (row : List String) (hrow : row ≠ []) :
    ∃ target,
      withSprintf.htmlRequestTarget (fmt.SprintfTotal beyond) config row = Except.ok target ∧
      ∀ (redirect : String) (doc : Document),
        htmlGetter target = HTMLFetch.page redirect "" doc →
        withSprintf.htmlRow (fmt.SprintfTotal beyond) config htmlGetter rReply rTitle row =
          { events := [Event.fetch target],
            result := Except.ok
              { Field := target, Value := "Webpage not found at " ++ redirect,
                URL := "" } } := by
  obtain ⟨target, ht⟩ :=
    withSprintf_target_returns (fmt.SprintfTotal beyond) (SprintfTotal_returns beyond) config
      row hrow
  refine ⟨target, ht, ?_⟩
  intro redirect doc hpage
  simp [withSprintf.htmlRow, Run.andThen, Run.lift, Run.emit, Run.ret, ht, hpage,
    SprintfTotal_of_ok beyond _ _ _ (notFound_value redirect)]

/-- C27 on the sample command: the page of the target https://x/e has no text and the
getter returns the url https://y/e for it; the row gives the not-found field, and the
handler sends it. -/
theorem C27_html_empty_text_not_found_witness :
    ["e", "e"] ≠ ([] : List String) ∧
    withSprintf.htmlRequestTarget (fmt.SprintfTotal noText) sampleScraperConfig ["e", "e"] =
      Except.ok "https://x/e" ∧
    mixedHTMLGetter "https://x/e" = HTMLFetch.page "https://y/e" "" sampleDocument ∧
    withSprintf.htmlRow (fmt.SprintfTotal noText) sampleScraperConfig mixedHTMLGetter 0 0
        ["e", "e"] =
      { events := [Event.fetch "https://x/e"],
        result := Except.ok
          { Field := "https://x/e", Value := "Webpage not found at " ++ "https://y/e",
            URL := "" } } ∧
    (withSprintf.goqueryScraper (fmt.SprintfTotal noText) sampleScraperConfig
        sampleConversation [["e", "e"]] mixedHTMLGetter (fun _ => 0)).events =
      [Event.fetch "https://x/e",
        Event.send sampleConversation
          { Title := "Scrape", Description := "",
            Fields := [{ Field := "https://x/e", Value := "Webpage not found at https://y/e",
                         URL := "" }] }] := by
  refine ⟨by decide, rfl, rfl, ?_, rfl⟩
  obtain ⟨target, htarget, hfield⟩ :=
    C27_html_empty_text_not_found noText sampleScraperConfig mixedHTMLGetter 0 0 ["e", "e"]
      (by decide)
  have heq : target = "https://x/e" := by
    have h : Except.ok target = (Except.ok "https://x/e" : Except Fault String) :=
      htarget.symm.trans rfl
    injection h
  subst heq
  exact hfield "https://y/e" sampleDocument rfl

/-! ## The guard of the handlers: claim C28 -/

/-- C28 fails on the code: the guard compares `len(msg[0])`, which counts the whole match,
with the number of placeholders, and looks at the first row only. With the URL
"https://x/%s" the capture set [["w"]] has no captured value and passes the guard of both
handlers, which then call the getter with the unfilled target "https://x/%s"; and the
capture set [["a", "a"], []] passes the guard and the run is stopped by the panic of
`capture[1:]` on the second row. -/
theorem C28_guard_counts_whole_match :
    (goqueryScraper sampleScraperConfig sampleConversation [["w"]] mixedHTMLGetter
        (fun _ => 0)).events =
      [Event.fetch "https://x/%s",
        Event.send sampleConversation
          { Title := "Scrape", Description := "",
            Fields := [{ Field := "Title", Value := "Alpha", URL := "https://x/%s" }] }] ∧
    (jsonGetterFunc emptyInputDigest (sampleJSONConfig false) sampleConversation [["w"]]
        mixedJSONGetter).events = [Event.fetch "https://x/%s"] ∧
    goqueryScraper sampleScraperConfig sampleConversation [["a", "a"], []] mixedHTMLGetter
        (fun _ => 0) =
      { events := [Event.fetch "https://x/a"],
        result := Except.error (Fault.panic Panic.sliceBounds) } ∧
    jsonGetterFunc emptyInputDigest (sampleJSONConfig false) sampleConversation
        [["a", "a"], []] mixedJSONGetter =
      { events :=
          [Event.fetch "https://x/a",
            Event.send sampleConversation
              { Title := "A", Description := "first", Fields := [] }],
        result := Except.error (Fault.panic Panic.sliceBounds) } :=
  ⟨rfl, rfl, rfl, rfl⟩

/-! ## The token maker beyond the digest: claim C29 -/

/-- C29 fails on the code: `MakeToken` slices the 32 characters of the hexadecimal digest
with `[:t.Size]` without a test of `t.Size`. For Type "MD5" and every Size above 32,
whatever the digest function, the affixes and the input, the call panics with "slice
bounds out of range" and returns no token. -/
theorem C29_makeToken_panics_beyond_digest (md5Sum : List UInt8 → Digest)
    (pre post input : String) (extra : Nat) :
    TokenMaker.MakeToken md5Sum
        { Type_ := "MD5", Prefix := pre, Postfix := post, Size := 33 + (extra : Int) } input =
      Except.error Panic.sliceBounds := by
  simp only [TokenMaker.MakeToken, if_true, sliceTo, sprintfHex_length]
  rw [if_pos]
  right
  push_cast
  omega

/-! ## The parsers of command parameters: claim C30 -/

/-- C30 fails on the code for a type that is not registered: `ParseInput` calls
`INPUTS[c.Type]`, which is the nil function for a type name such as "float", and the call
panics; no error is returned. For the types "string" and "bool" the parsers are as
stated: "string" returns the input with no error; "bool" returns true with no error when
the lower-cased input is "true", false with no error when it is "false", and false with
the error "parsing error" otherwise. -/
theorem C30_parseInput_unregistered_type_panics (toLower : String → String)
    (atoi : String → Int × Option String) (name description input : String) :
    CommandParameter.ParseInput toLower atoi
        { Type_ := "float", Name := name, Description := description } input =
      Except.error Panic.nilDereference ∧
    CommandParameter.ParseInput toLower atoi
        { Type_ := "string", Name := name, Description := description } input =
      Except.ok (Value.str input, none) ∧
    CommandParameter.ParseInput toLower atoi
        { Type_ := "bool", Name := name, Description := description } input =
      Except.ok
        (if toLower input = "true" then (Value.bool true, none)
         else if toLower input = "false" then (Value.bool false, none)
         else (Value.bool false, some "parsing error")) :=
  ⟨rfl, rfl, rfl⟩

end FLDBot
